/-
  Verification of the MGNREGA district-statistics service.

  Shallow embedding of the reconciliation engine (DataProcessingService,
  `processAndStoreDataBulk` and its helpers), the query resolver
  (`districtController.getDistrictData`), and the derived-metric functions.

  Modelling conventions:
  * JS numbers are modelled as `ℚ` (for DECIMAL columns / parseFloat values)
    or `ℤ` (for INTEGER/BIGINT columns / parseInt values); `Math.round` is
    round-half-up on rationals.
  * Raw upstream records carry already-parsed optional numeric fields: the
    JS `parseInt(x) || 0` / `parseFloat(x) || 0` idiom is modelled as
    `Option.getD · 0` (an unparsable field, i.e. NaN, and a parsed 0 both
    collapse to 0, exactly as `|| 0` does).
  * Relational tables are lists of rows; `bulkCreate` with
    `updateOnDuplicate` is a fold of a keyed upsert (insert-or-update on
    the unique key), and `ignoreDuplicates` the special case whose update
    leaves the row unchanged.  The declared foreign-key constraints of the
    schema (models/District.js, models/DistrictExtendedMetrics.js) are
    modelled as explicit checks that fail the enclosing transaction.
  * Row timestamps (`created_at` / `updated_at`) are not modelled.
-/
import Mathlib

namespace Mgnrega

/-! ### JS string and arithmetic prelude

JS strings are modelled as lists of characters (`JStr`) so that every
operation is a structurally recursive, kernel-computable function. -/

/-- A JS string: a list of characters. -/
abbrev JStr : Type := List Char

/-- Character list of a Lean string literal. -/
def js (s : String) : JStr := s.toList

/-- ASCII uppercase of one character (what `toUpperCase` does on the
ASCII inputs this system handles). -/
def jCharToUpper (c : Char) : Char :=
  if 97 ≤ c.toNat ∧ c.toNat ≤ 122 then Char.ofNat (c.toNat - 32) else c

/-- `String.prototype.toUpperCase()`. -/
def jToUpper (s : JStr) : JStr := s.map jCharToUpper

/-- `String.prototype.split(sep)` for a one-character separator. -/
def splitOnChar (c : Char) : JStr → List JStr
  | [] => [[]]
  | a :: rest =>
    match splitOnChar c rest with
    | [] => [[]]
    | g :: gs => if a = c then [] :: g :: gs else (a :: g) :: gs

/-- Coercion to a 32-bit signed integer, as applied by the JS bitwise
operators (`<<`, `&`) in `hashCode`. -/
def toInt32 (n : ℤ) : ℤ := (n + 2 ^ 31) % 2 ^ 32 - 2 ^ 31

/-- `Math.round`: round half up. -/
def jsRound (q : ℚ) : ℤ := ⌊q + 1 / 2⌋

/-- `Number.prototype.toFixed(2)` followed by `parseFloat`: round to two
decimal places. -/
def toFixed2 (q : ℚ) : ℚ := (jsRound (q * 100) : ℚ) / 100

/-- Little-endian decimal digits with structural fuel (the fuel `n`
itself always suffices). -/
def natDigitsAux : ℕ → ℕ → List ℕ
  | 0, _ => []
  | fuel + 1, n => if n = 0 then [] else (n % 10) :: natDigitsAux fuel (n / 10)

/-- Decimal representation of a natural number, as produced by
`Number.prototype.toString()` for the nonnegative integers used in
`generateDistrictCode`. -/
def decimalStr (n : ℕ) : JStr :=
  if n = 0 then [Char.ofNat 48]
  else ((natDigitsAux n n).reverse).map (fun d => Char.ofNat (48 + d))

/-- `String.prototype.padStart(len, c)`. -/
def padStart (s : JStr) (len : ℕ) (c : Char) : JStr :=
  List.replicate (len - s.length) c ++ s

/-- Decimal `parseInt` on a list of characters: optional sign, then a
nonempty run of leading digits; `none` models `NaN`. -/
def parseIntCore : List Char → Option ℤ
  | [] => none
  | c :: cs =>
    if c = Char.ofNat 45 then (parseDigits cs 0 false).map (fun n => -n)
    else if c = Char.ofNat 43 then parseDigits cs 0 false
    else parseDigits (c :: cs) 0 false
where
  parseDigits : List Char → ℤ → Bool → Option ℤ
    | [], acc, seen => if seen then some acc else none
    | c :: cs, acc, seen =>
      if c.isDigit then parseDigits cs (acc * 10 + (c.toNat - 48 : ℕ)) true
      else if seen then some acc else none

/-- JS `parseInt` (radix 10) on a string, ignoring leading whitespace;
`none` models `NaN`. -/
def jsParseInt (s : JStr) : Option ℤ :=
  parseIntCore (s.dropWhile (fun c => decide (c = ' ')))

/-! ### Data model (storage rows and canonical upstream records) -/

/-- A row of the `states` table (models/state.js): primary key
`stateCode`, display name `stateName`. -/
structure StateRow where
  stateCode : JStr
  stateName : JStr
  deriving DecidableEq, Repr

/-- A row of the `districts` table (models/District.js): primary key
`districtCode`, foreign key `stateCode` into `states`. -/
structure DistrictRow where
  districtCode : JStr
  districtName : JStr
  stateCode : JStr
  deriving DecidableEq, Repr

/-- A row of the `financial_years` table (models/FinancialYear.js).
`startYear`/`endYear` are `Option ℤ` because `parseInt` on a malformed
label yields NaN. -/
structure FinYearRow where
  finYear : JStr
  startYear : Option ℤ
  endYear : Option ℤ
  deriving DecidableEq, Repr

/-- The non-`id` columns of a `district_performance` row, as prepared by
`preparePerformanceRecords`.  The composite natural key is
(`districtCode`, `finYear`, `month`). -/
structure PerfIn where
  districtCode : JStr
  finYear : JStr
  month : Option JStr
  approvedLabourBudget : ℤ
  averageWageRate : ℚ
  averageDaysEmployment : ℚ
  totalHouseholdsWorked : ℤ
  totalIndividualsWorked : ℤ
  completedWorks : ℤ
  ongoingWorks : ℤ
  womenPersondays : ℚ
  scPersondays : ℤ
  stPersondays : ℤ
  totalExpenditure : ℤ
  wages : ℤ
  households100Days : ℤ
  paymentWithin15Days : ℚ
  deriving DecidableEq, Repr

/-- A stored `district_performance` row: auto-increment `id` plus the
prepared columns. -/
structure PerfRow where
  id : ℕ
  data : PerfIn
  deriving DecidableEq, Repr

/-- A row of `district_extended_metrics`: unique foreign key
`performanceId`; every secondary indicator is written as the constant 0
by `bulkUpsertExtendedMetrics`. -/
structure ExtRow where
  performanceId : ℕ
  totalWorkers : ℤ
  totalActiveWorkers : ℤ
  totalJobcardsIssued : ℤ
  totalActiveJobcards : ℤ
  scWorkersActive : ℤ
  stWorkersActive : ℤ
  differentlyAbledWorked : ℤ
  percentNrmExpenditure : ℚ
  percentCategoryBWorks : ℚ
  percentAgricultureAllied : ℚ
  totalAdminExpenditure : ℚ
  materialSkilledWages : ℚ
  persondaysCentralLiability : ℤ
  totalWorksTakenup : ℤ
  gpsWithNilExp : ℤ
  deriving DecidableEq, Repr

/-- A raw upstream record, after the numeric fields have been parsed
(see the header: `parseInt(f) || 0` is modelled as `Option.getD · 0`). -/
structure ApiRecord where
  state_name : Option JStr
  state_code : Option JStr
  district_name : Option JStr
  district_code : Option JStr
  fin_year : Option JStr
  month : Option JStr
  Approved_Labour_Budget : Option ℤ
  Average_Wage_rate_per_day_per_person : Option ℚ
  Average_days_of_employment_provided_per_Household : Option ℚ
  Total_Households_Worked : Option ℤ
  Total_Individuals_Worked : Option ℤ
  Number_of_Completed_Works : Option ℤ
  Number_of_Ongoing_Works : Option ℤ
  Women_Persondays : Option ℚ
  SC_persondays : Option ℤ
  ST_persondays : Option ℤ
  Total_Exp : Option ℤ
  Wages : Option ℤ
  Total_No_of_HHs_completed_100_Days_of_Wage_Employment : Option ℤ
  percentage_payments_gererated_within_15_days : Option ℚ
  deriving DecidableEq, Repr

/-- The local relational store: the four tables plus the auto-increment
counter of `district_performance`. -/
structure Storage where
  states : List StateRow
  districts : List DistrictRow
  finYears : List FinYearRow
  performances : List PerfRow
  nextPerfId : ℕ
  extendedMetrics : List ExtRow
  deriving DecidableEq, Repr

def emptyStorage : Storage := ⟨[], [], [], [], 0, []⟩

/-! ### Helper functions of DataProcessingService -/

/-- The static state-name → code lookup table of `generateStateCode`. -/
def stateCodeMap : List (JStr × JStr) :=
  [(js "ANDHRA PRADESH", js "AP"), (js "ARUNACHAL PRADESH", js "AR"), (js "ASSAM", js "AS"),
   (js "BIHAR", js "BR"), (js "CHHATTISGARH", js "CG"), (js "GOA", js "GA"), (js "GUJARAT", js "GJ"),
   (js "HARYANA", js "HR"), (js "HIMACHAL PRADESH", js "HP"), (js "JHARKHAND", js "JH"),
   (js "KARNATAKA", js "KA"), (js "KERALA", js "KL"), (js "MADHYA PRADESH", js "MP"),
   (js "MAHARASHTRA", js "MH"), (js "MANIPUR", js "MN"), (js "MEGHALAYA", js "ML"),
   (js "MIZORAM", js "MZ"), (js "NAGALAND", js "NL"), (js "ODISHA", js "OR"), (js "PUNJAB", js "PB"),
   (js "RAJASTHAN", js "RJ"), (js "SIKKIM", js "SK"), (js "TAMIL NADU", js "TN"),
   (js "TELANGANA", js "TG"), (js "TRIPURA", js "TR"), (js "UTTAR PRADESH", js "UP"),
   (js "UTTARAKHAND", js "UK"), (js "WEST BENGAL", js "WB")]

/-- `generateStateCode`: static lookup by uppercased name, falling back to
the first two letters uppercased; `'XX'` for a missing name. -/
def generateStateCode (stateName : Option JStr) : JStr :=
  match stateName with
  | none => js "XX"
  | some nm =>
    if nm = [] then js "XX"
    else
      match (stateCodeMap.find? (fun p => decide (p.1 = jToUpper nm))).map Prod.snd with
      | some code => code
      | none => jToUpper (nm.take 2)

/-- `hashCode`: the 32-bit string hash
`hash = ((hash << 5) - hash) + charCode; hash = hash & hash`. -/
def hashCode (s : JStr) : ℤ :=
  s.foldl (fun h c => toInt32 (toInt32 (h * 32) - h + (c.toNat : ℤ))) 0

/-- `generateDistrictCode`: `'UNKNOWN'` when the name or the state code is
missing, otherwise state code ++ first 3 letters of the name uppercased ++
the 3-digit zero-padded hash of the name mod 1000. -/
def generateDistrictCode (districtName : Option JStr) (stateCode : JStr) : JStr :=
  match districtName with
  | none => js "UNKNOWN"
  | some nm =>
    if nm = [] ∨ stateCode = [] then js "UNKNOWN"
    else
      stateCode ++ jToUpper (nm.take 3) ++
        padStart (decimalStr ((hashCode nm).natAbs % 1000)) 3 (Char.ofNat 48)

/-- `parseFinancialYear`: a label that is empty or contains no `'-'`
defaults to the current year span; otherwise the label is split on `'-'`
and the first two parts go through `parseInt` (NaN modelled as `none`). -/
def parseFinancialYear (finYear : JStr) (currentYear : ℤ) : Option ℤ × Option ℤ :=
  if finYear = [] ∨ ¬ (finYear.contains (Char.ofNat 45) = true) then
    (some currentYear, some (currentYear + 1))
  else
    match splitOnChar (Char.ofNat 45) finYear with
    | a :: b :: _ => (jsParseInt a, jsParseInt b)
    | _ => (some currentYear, some (currentYear + 1))

/-- `record.state_name?.toUpperCase() || ''`. -/
def stateNameOf (r : ApiRecord) : JStr :=
  match r.state_name with
  | none => []
  | some s => jToUpper s

/-- `record.state_code || this.generateStateCode(record.state_name)`
(an empty string is falsy in JS). -/
def stateCodeOf (r : ApiRecord) : JStr :=
  match r.state_code with
  | some c => if c = [] then generateStateCode r.state_name else c
  | none => generateStateCode r.state_name

/-- `record.district_code || this.generateDistrictCode(record.district_name, stateCode)`. -/
def districtCodeOf (r : ApiRecord) : JStr :=
  match r.district_code with
  | some c => if c = [] then generateDistrictCode r.district_name (stateCodeOf r) else c
  | none => generateDistrictCode r.district_name (stateCodeOf r)

/-- `record.district_name?.toUpperCase() || ''`. -/
def districtNameOf (r : ApiRecord) : JStr :=
  match r.district_name with
  | none => []
  | some s => jToUpper s

/-- `record.month?.toUpperCase() || null`. -/
def monthOf (r : ApiRecord) : Option JStr :=
  match r.month with
  | none => none
  | some m => if jToUpper m = [] then none else some (jToUpper m)

/-- First-occurrence deduplication by a key, in input order: the JS
`Map`-based idiom of the `extractUnique*` helpers. -/
def dedupKeyed {β : Type} {κ : Type} [DecidableEq κ] (key : β → κ) (l : List β) : List β :=
  l.foldl (fun acc x => if acc.any (fun y => decide (key y = key x)) then acc else acc ++ [x]) []

/-- `extractUniqueStates`: deduplicate by uppercased state name (the `Map`
key), keeping the first record sighted for each name. -/
def extractUniqueStates (apiData : List ApiRecord) : List StateRow :=
  (dedupKeyed stateNameOf apiData).map (fun r => ⟨stateCodeOf r, stateNameOf r⟩)

/-- `extractUniqueDistricts`: deduplicate by derived district code. -/
def extractUniqueDistricts (apiData : List ApiRecord) : List DistrictRow :=
  (dedupKeyed districtCodeOf apiData).map
    (fun r => ⟨districtCodeOf r, districtNameOf r, stateCodeOf r⟩)

/-- `extractUniqueFinYears`: deduplicate by the raw `fin_year` label
(`record.fin_year || ''`) and parse each label once. -/
def finYearLabelOf (r : ApiRecord) : JStr := r.fin_year.getD []

def extractUniqueFinYears (apiData : List ApiRecord) (currentYear : ℤ) : List FinYearRow :=
  (dedupKeyed finYearLabelOf apiData).map (fun r =>
    let fy := parseFinancialYear (finYearLabelOf r) currentYear
    ⟨finYearLabelOf r, fy.1, fy.2⟩)

/-- `preparePerformanceRecords`: one prepared row per raw record, keys
derived as in the extractors, numeric fields defaulted to 0. -/
def preparePerformanceRecords (apiData : List ApiRecord) : List PerfIn :=
  apiData.map (fun r =>
    { districtCode := districtCodeOf r
      finYear := finYearLabelOf r
      month := monthOf r
      approvedLabourBudget := r.Approved_Labour_Budget.getD 0
      averageWageRate := r.Average_Wage_rate_per_day_per_person.getD 0
      averageDaysEmployment := r.Average_days_of_employment_provided_per_Household.getD 0
      totalHouseholdsWorked := r.Total_Households_Worked.getD 0
      totalIndividualsWorked := r.Total_Individuals_Worked.getD 0
      completedWorks := r.Number_of_Completed_Works.getD 0
      ongoingWorks := r.Number_of_Ongoing_Works.getD 0
      womenPersondays := r.Women_Persondays.getD 0
      scPersondays := r.SC_persondays.getD 0
      stPersondays := r.ST_persondays.getD 0
      totalExpenditure := r.Total_Exp.getD 0
      wages := r.Wages.getD 0
      households100Days := r.Total_No_of_HHs_completed_100_Days_of_Wage_Employment.getD 0
      paymentWithin15Days := r.percentage_payments_gererated_within_15_days.getD 0 })

/-! ### Derived metrics (pure functions of DataProcessingService) -/

/-- `calculateSCSTPercentage`: SC+ST persondays over total individuals
worked, with denominator 1 substituted when the total is 0 (`|| 1`). -/
def calculateSCSTPercentage (p : PerfIn) : ℚ :=
  let total : ℚ := if p.totalIndividualsWorked = 0 then 1 else (p.totalIndividualsWorked : ℚ)
  let scSt : ℚ := ((p.scPersondays : ℚ) + (p.stPersondays : ℚ))
  toFixed2 ((scSt / total) * 100)

/-- `calculateWomenPercentage`. -/
def calculateWomenPercentage (p : PerfIn) : ℚ :=
  let total : ℚ := if p.totalIndividualsWorked = 0 then 1 else (p.totalIndividualsWorked : ℚ)
  toFixed2 ((p.womenPersondays / total) * 100)

/-- `calculateCompletionRate`: share of completed works, 0 when there are
no works at all. -/
def calculateCompletionRate (p : PerfIn) : ℚ :=
  let total : ℤ := p.completedWorks + p.ongoingWorks
  if total = 0 then 0
  else toFixed2 (((p.completedWorks : ℚ) / (total : ℚ)) * 100)

/-- `calculateBudgetUtilization`: expenditure over approved budget, with
denominator 1 substituted when the budget is 0 (`|| 1`). -/
def calculateBudgetUtilization (p : PerfIn) : ℚ :=
  let budget : ℚ := if p.approvedLabourBudget = 0 then 1 else (p.approvedLabourBudget : ℚ)
  toFixed2 (((p.totalExpenditure : ℚ) / budget) * 100)

/-- `calculatePerformanceScore`: rounded sum of the employment-days,
payment-timeliness, women-participation and completion-rate components. -/
def calculatePerformanceScore (d : PerfIn) : ℤ :=
  let c1 : ℚ := min ((d.averageDaysEmployment / 100) * 30) 30
  let c2 : ℚ := (d.paymentWithin15Days / 100) * 25
  let c3 : ℚ := min ((d.womenPersondays / 50) * 20) 20
  let totalWorks : ℤ := d.completedWorks + d.ongoingWorks
  let c4 : ℚ := if totalWorks > 0 then ((d.completedWorks : ℚ) / (totalWorks : ℚ)) * 25 else 0
  jsRound (c1 + c2 + c3 + c4)

/-- `getPerformanceGrade`: letter grade from the score. -/
def getPerformanceGrade (d : PerfIn) : JStr :=
  let score := calculatePerformanceScore d
  if score ≥ 80 then js "A"
  else if score ≥ 60 then js "B"
  else if score ≥ 40 then js "C"
  else if score ≥ 20 then js "D"
  else js "E"

/-! ### Generic keyed bulk upsert

`bulkCreate` with `updateOnDuplicate` against a table with a unique key is
an insert-or-update per element: if a row with the element's key exists it
is updated in place (`mg`), otherwise a fresh row is inserted (`ins`, which
may consume auto-increment state `σ`).  `ignoreDuplicates` is the special
case where `mg r x = r`.  The returned list models the instances
`bulkCreate` hands back, one per input element. -/

section Upsert

variable {α β κ σ : Type} [DecidableEq κ]
variable (ka : α → κ) (kb : β → κ) (mg : α → β → α) (ins : σ → β → α × σ)

/-- Update step applied to every row whose key matches the input. -/
def applyM (x : β) (r : α) : α := if ka r = kb x then mg r x else r

/-- One insert-or-update. -/
def upsert1 (T : List α) (s : σ) (x : β) : (List α × σ) × α :=
  match T.find? (fun r => decide (ka r = kb x)) with
  | some r0 => ((T.map (applyM ka kb mg x), s), mg r0 x)
  | none => ((T ++ [(ins s x).1], (ins s x).2), (ins s x).1)

/-- Bulk upsert: fold `upsert1` over the input, collecting returned rows. -/
def upsertFold : List α → σ → List β → (List α × σ) × List α
  | T, s, [] => ((T, s), [])
  | T, s, x :: u =>
    let p := upsert1 ka kb mg ins T s x
    let q := upsertFold p.1.1 p.1.2 u
    (q.1, p.2 :: q.2)

/-- A row obtained from `base` by a sequence of in-place updates. -/
inductive Evolves (mg : α → β → α) (base : α) : α → Prop
  | base : Evolves mg base base
  | step (y : β) (a : α) : Evolves mg base a → Evolves mg base (mg a y)

end Upsert

/-! ### The reconciliation engine: `processAndStoreDataBulk`

The five steps of the bulk ingest, in the transaction's order.  The
declared foreign keys of the schema (districts.state_code → states,
district_performance.district_code → districts,
district_performance.fin_year → financial_years) are modelled as explicit
checks whose failure aborts — and thereby rolls back — the transaction. -/

inductive IngestErr
  | fkDistrictState
  | fkPerfDistrict
  | fkPerfFinYear
  deriving DecidableEq, Repr

/-- Step 1: `bulkUpsertStates` — `bulkCreate` on `states` with
`updateOnDuplicate: ['stateName']`, key `stateCode`. -/
def bulkUpsertStates (tbl : List StateRow) (states : List StateRow) : List StateRow :=
  (upsertFold (fun r => r.stateCode) (fun x => x.stateCode)
    (fun r x => { r with stateName := x.stateName })
    (fun (t : Unit) x => (x, t)) tbl () states).1.1

/-- Step 2: `bulkUpsertDistricts` — `bulkCreate` on `districts` with
`updateOnDuplicate: ['districtName', 'stateCode']`, key `districtCode`;
the foreign key `stateCode → states` must resolve. -/
def bulkUpsertDistricts (statesTbl : List StateRow) (tbl : List DistrictRow)
    (districts : List DistrictRow) : Except IngestErr (List DistrictRow) :=
  if districts.all (fun x => statesTbl.any (fun st => decide (st.stateCode = x.stateCode))) then
    .ok (upsertFold (fun r => r.districtCode) (fun x => x.districtCode)
      (fun r x => { r with districtName := x.districtName, stateCode := x.stateCode })
      (fun (t : Unit) x => (x, t)) tbl () districts).1.1
  else .error .fkDistrictState

/-- Step 3: `bulkUpsertFinancialYears` — `bulkCreate` with
`updateOnDuplicate: ['startYear', 'endYear']`, key `finYear`. -/
def bulkUpsertFinancialYears (tbl : List FinYearRow) (finYears : List FinYearRow) :
    List FinYearRow :=
  (upsertFold (fun r => r.finYear) (fun x => x.finYear)
    (fun r x => { r with startYear := x.startYear, endYear := x.endYear })
    (fun (t : Unit) x => (x, t)) tbl () finYears).1.1

/-- The composite natural key of `district_performance`
(unique index `uk_district_year_month`). -/
def perfKey (p : PerfIn) : JStr × JStr × Option JStr :=
  (p.districtCode, p.finYear, p.month)

/-- Step 4: `bulkUpsertPerformance` — `bulkCreate` with
`updateOnDuplicate` on the 14 numeric columns, keyed by the composite
natural key; inserts consume the auto-increment id; the stored rows for
the input records are returned.  Both declared foreign keys must
resolve. -/
def bulkUpsertPerformance (districtsTbl : List DistrictRow) (fyTbl : List FinYearRow)
    (tbl : List PerfRow) (nextId : ℕ) (records : List PerfIn) :
    Except IngestErr ((List PerfRow × ℕ) × List PerfRow) :=
  if records.all (fun x => districtsTbl.any (fun d => decide (d.districtCode = x.districtCode))) then
    if records.all (fun x => fyTbl.any (fun fy => decide (fy.finYear = x.finYear))) then
      .ok (upsertFold (fun r => perfKey r.data) perfKey
        (fun r x => ⟨r.id, x⟩) (fun n x => (⟨n, x⟩, n + 1)) tbl nextId records)
    else .error .fkPerfFinYear
  else .error .fkPerfDistrict

/-- The extended-metrics row built for a performance row: every secondary
indicator is the constant 0 in the source. -/
def extRowOf (p : PerfRow) : ExtRow :=
  ⟨p.id, 0, 0, 0, 0, 0, 0, 0, 0, 0, 0, 0, 0, 0, 0, 0⟩

/-- Step 5: `bulkUpsertExtendedMetrics` — `bulkCreate` with
`ignoreDuplicates: true` on the unique key `performanceId`: insert or
skip, never update.  (The source also builds a lookup map from the raw
records, but the looked-up value contributes nothing to the inserted
rows, so the map is omitted here; the `apiData` parameter is kept for
shape.) -/
def bulkUpsertExtendedMetrics (tbl : List ExtRow) (performances : List PerfRow)
    (apiData : List ApiRecord) : List ExtRow :=
  (upsertFold (fun r => r.performanceId) (fun x => x.id)
    (fun r _ => r) (fun (t : Unit) x => (extRowOf x, t)) tbl () performances).1.1

/-- `processAndStoreDataBulk`: the five ingest steps in order inside one
transaction.  An error at any step aborts with no storage change (the
caller keeps the prior `Storage`), modelling `transaction.rollback`
followed by `throw`. -/
def processAndStoreDataBulk (s : Storage) (apiData : List ApiRecord) (currentYear : ℤ) :
    Except IngestErr (Storage × List PerfRow) :=
  let states1 := bulkUpsertStates s.states (extractUniqueStates apiData)
  match bulkUpsertDistricts states1 s.districts (extractUniqueDistricts apiData) with
  | .error e => .error e
  | .ok districts1 =>
    let finYears1 := bulkUpsertFinancialYears s.finYears
      (extractUniqueFinYears apiData currentYear)
    match bulkUpsertPerformance districts1 finYears1 s.performances s.nextPerfId
        (preparePerformanceRecords apiData) with
    | .error e => .error e
    | .ok ((perf1, nid1), recs) =>
      let ext1 := bulkUpsertExtendedMetrics s.extendedMetrics recs apiData
      .ok ({ states := states1, districts := districts1, finYears := finYears1,
             performances := perf1, nextPerfId := nid1, extendedMetrics := ext1 }, recs)

/-- The ingest call as observed by the caller: on success the committed
storage, on failure the original storage together with the propagated
error (rollback). -/
def processAndStoreDataBulkRun (s : Storage) (apiData : List ApiRecord) (currentYear : ℤ) :
    Storage × Except IngestErr (List PerfRow) :=
  match processAndStoreDataBulk s apiData currentYear with
  | .ok (s1, recs) => (s1, .ok recs)
  | .error e => (s, .error e)

/-- A concrete upstream record used to exercise the theorems. -/
def sampleRecord : ApiRecord :=
  { state_name := some (js "Kerala")
    state_code := none
    district_name := some (js "Mysuru")
    district_code := none
    fin_year := some (js "2024-2025")
    month := some (js "May")
    Approved_Labour_Budget := some 1000
    Average_Wage_rate_per_day_per_person := some 250
    Average_days_of_employment_provided_per_Household := some 40
    Total_Households_Worked := some 120
    Total_Individuals_Worked := some 150
    Number_of_Completed_Works := some 30
    Number_of_Ongoing_Works := some 10
    Women_Persondays := some 20
    SC_persondays := some 5
    ST_persondays := some 7
    Total_Exp := some 900
    Wages := some 700
    Total_No_of_HHs_completed_100_Days_of_Wage_Employment := some 4
    percentage_payments_gererated_within_15_days := some 80 }

def sampleIngest : Except IngestErr (Storage × List PerfRow) :=
  processAndStoreDataBulk emptyStorage [sampleRecord] 2024

def sampleStorage : Storage :=
  match sampleIngest with
  | .ok (s1, _) => s1
  | .error _ => emptyStorage

def sampleRecs : List PerfRow :=
  match sampleIngest with
  | .ok (_, r) => r
  | .error _ => []

/-- A batch whose two records carry the same state name but different
state codes: step 1 keeps only the first code, so the second record's
district violates the foreign key and the whole batch must roll back. -/
def badRecordA : ApiRecord :=
  { state_name := some (js "Xstate")
    state_code := some (js "AA")
    district_name := some (js "Done")
    district_code := none
    fin_year := some (js "2024-2025")
    month := some (js "May")
    Approved_Labour_Budget := none
    Average_Wage_rate_per_day_per_person := none
    Average_days_of_employment_provided_per_Household := none
    Total_Households_Worked := none
    Total_Individuals_Worked := none
    Number_of_Completed_Works := none
    Number_of_Ongoing_Works := none
    Women_Persondays := none
    SC_persondays := none
    ST_persondays := none
    Total_Exp := none
    Wages := none
    Total_No_of_HHs_completed_100_Days_of_Wage_Employment := none
    percentage_payments_gererated_within_15_days := none }

def badRecordB : ApiRecord :=
  { badRecordA with state_code := some (js "BB"), district_name := some (js "Dtwo") }

/-- The referential-integrity invariant of the store: every District's
state exists, every PerformanceRecord's district and financial year
exist, every ExtendedMetrics row's performance record exists. -/
def RefInv (s : Storage) : Prop :=
  (∀ d ∈ s.districts, ∃ st ∈ s.states, st.stateCode = d.stateCode)
  ∧ (∀ p ∈ s.performances,
      (∃ d ∈ s.districts, d.districtCode = p.data.districtCode)
      ∧ (∃ fy ∈ s.finYears, fy.finYear = p.data.finYear))
  ∧ (∀ e ∈ s.extendedMetrics, ∃ p ∈ s.performances, p.id = e.performanceId)

instance (s : Storage) : Decidable (RefInv s) := by
  unfold RefInv
  infer_instance

/-! ### Derived-metric claims -/

/-- A performance row with every numeric field 0. -/
def basePerf : PerfIn :=
  { districtCode := js "D", finYear := js "2024-2025", month := none,
    approvedLabourBudget := 0, averageWageRate := 0, averageDaysEmployment := 0,
    totalHouseholdsWorked := 0, totalIndividualsWorked := 0, completedWorks := 0,
    ongoingWorks := 0, womenPersondays := 0, scPersondays := 0, stPersondays := 0,
    totalExpenditure := 0, wages := 0, households100Days := 0, paymentWithin15Days := 0 }

/-- A stored row whose payment-timeliness percentage exceeds 100 — the
upstream field is never clamped on ingest. -/
def overpaidPerf : PerfIn := { basePerf with paymentWithin15Days := 500 }

/-- A record with all components populated and in range. -/
def scorePerf : PerfIn :=
  { basePerf with
      averageDaysEmployment := 50
      paymentWithin15Days := 80
      womenPersondays := 30
      completedWorks := 3
      ongoingWorks := 1 }

/-! ### Reporting-period parsing (C8) -/

/-- Decimal value of a digit string, as accumulated by `parseInt`. -/
def digitsVal (s : JStr) : ℤ :=
  s.foldl (fun acc c => acc * 10 + ((c.toNat - 48 : ℕ) : ℤ)) 0

/-! ### District comparison (C9) -/

/-- A performance row joined with its (optional) District row, as handed
to `generateComparison` by `compareDistricts`. -/
structure JoinedPerf where
  district : Option DistrictRow
  data : PerfIn
  deriving DecidableEq, Repr

/-- The seven parallel metric-value arrays of a comparison. -/
structure ComparisonMetrics where
  averageDaysEmployment : List ℚ
  averageWageRate : List ℚ
  totalHouseholdsWorked : List ℚ
  womenPersondays : List ℚ
  paymentWithin15Days : List ℚ
  completedWorks : List ℚ
  performanceScores : List ℚ
  deriving DecidableEq, Repr

/-- The per-metric rank arrays. -/
structure ComparisonRankings where
  averageDaysEmployment : List ℕ
  averageWageRate : List ℕ
  totalHouseholdsWorked : List ℕ
  womenPersondays : List ℕ
  paymentWithin15Days : List ℕ
  completedWorks : List ℕ
  performanceScores : List ℕ
  deriving DecidableEq, Repr

structure Comparison where
  districts : List JStr
  metrics : ComparisonMetrics
  rankings : ComparisonRankings
  deriving DecidableEq, Repr

/-- `[...values].sort((a, b) => b - a)`: the values sorted descending. -/
def sortDesc (l : List ℚ) : List ℚ := l.insertionSort (fun a b => a ≥ b)

/-- `sorted.indexOf(v)`: index of the first occurrence. -/
def firstIdx (v : ℚ) : List ℚ → ℕ
  | [] => 0
  | x :: xs => if x = v then 0 else firstIdx v xs + 1

/-- `values.map(v => sorted.indexOf(v) + 1)`. -/
def rankValues (values : List ℚ) : List ℕ :=
  values.map (fun v => firstIdx v (sortDesc values) + 1)

/-- `districtPerf.district?.districtName || 'Unknown'`. -/
def districtLabel (dp : JoinedPerf) : JStr :=
  match dp.district with
  | none => js "Unknown"
  | some d => if d.districtName = [] then js "Unknown" else d.districtName

/-- `generateComparison`: the parallel metric arrays in input order, and
for every metric a ranking array mapping each value to one plus its first
occurrence in the descending-sorted value list. -/
def generateComparison (districts : List JoinedPerf) : Comparison :=
  let m : ComparisonMetrics :=
    { averageDaysEmployment := districts.map (fun dp => dp.data.averageDaysEmployment)
      averageWageRate := districts.map (fun dp => dp.data.averageWageRate)
      totalHouseholdsWorked := districts.map (fun dp => (dp.data.totalHouseholdsWorked : ℚ))
      womenPersondays := districts.map (fun dp => dp.data.womenPersondays)
      paymentWithin15Days := districts.map (fun dp => dp.data.paymentWithin15Days)
      completedWorks := districts.map (fun dp => (dp.data.completedWorks : ℚ))
      performanceScores := districts.map
        (fun dp => ((calculatePerformanceScore dp.data : ℤ) : ℚ)) }
  { districts := districts.map districtLabel
    metrics := m
    rankings :=
      { averageDaysEmployment := rankValues m.averageDaysEmployment
        averageWageRate := rankValues m.averageWageRate
        totalHouseholdsWorked := rankValues m.totalHouseholdsWorked
        womenPersondays := rankValues m.womenPersondays
        paymentWithin15Days := rankValues m.paymentWithin15Days
        completedWorks := rankValues m.completedWorks
        performanceScores := rankValues m.performanceScores } }

instance : IsTotal ℚ (fun a b : ℚ => a ≥ b) := ⟨fun a b => le_total b a⟩

instance : IsTrans ℚ (fun a b : ℚ => a ≥ b) := ⟨fun a b c h1 h2 => le_trans h2 h1⟩

/-! ### The query resolver: `districtController.getDistrictData`

The controller is modelled as a function of the local storage and an
upstream oracle `F` (the `mgnregaApiService.fetchDistrictData` calls,
cache included); it returns the HTTP outcome, the final storage, and the
number of upstream calls made.  Response payloads and result ordering
(`ORDER BY month DESC, updated_at DESC`) are not modelled — the claims
concern outcome kinds, storage and call counts only.  The
case-insensitive `Op.like` name matches are modelled as equality of
uppercased names (the names involved contain no SQL wildcards). -/

structure Query where
  state : JStr
  district : Option JStr
  finYear : JStr
  month : Option JStr
  deriving DecidableEq, Repr

/-- The distinct controller outcomes of `getDistrictData`, one per
`return res.status(...)` site. -/
inductive Response
  | ok
  | badRequest
  | notFoundStateNoData
  | notFoundDataForYear
  | notFoundState
  | notFoundDistrict
  | notFoundDistrictAfterFetch
  | notFoundCriteria
  | unavailable
  deriving DecidableEq, Repr

/-- The HTTP status of each outcome. -/
def statusOf : Response → ℕ
  | .ok => 200
  | .badRequest => 400
  | .unavailable => 503
  | _ => 404

/-- The upstream oracle: `fetchDistrictData({stateName, finYear,
districtName})`, which either throws or yields a record list. -/
abbrev Upstream : Type := JStr → JStr → Option JStr → Except Unit (List ApiRecord)

/-- `State.findOne({ stateName: { [Op.like]: state.toUpperCase() } })`. -/
def findState (s : Storage) (name : JStr) : Option StateRow :=
  s.states.find? (fun r => decide (jToUpper r.stateName = jToUpper name))

/-- `District.findOne({ districtName: { [Op.like]: district.toUpperCase() }, stateCode })`. -/
def findDistrict (s : Storage) (dname : JStr) (stateCode : JStr) : Option DistrictRow :=
  s.districts.find?
    (fun r => decide (jToUpper r.districtName = jToUpper dname ∧ r.stateCode = stateCode))

structure WhereClause where
  finYear : JStr
  month : Option JStr
  districtCode : Option JStr
  deriving DecidableEq, Repr

/-- `DistrictPerformance.findAll` with the where clause and the required
inner join on District (filtered by stateCode). -/
def fetchPerformanceData (s : Storage) (w : WhereClause) (stateCode : JStr) : List PerfRow :=
  s.performances.filter (fun p =>
    decide (p.data.finYear = w.finYear)
    && (match w.month with
        | none => true
        | some m => decide (p.data.month = some m))
    && (match w.districtCode with
        | none => true
        | some dc => decide (p.data.districtCode = dc))
    && s.districts.any (fun d =>
        decide (d.districtCode = p.data.districtCode ∧ d.stateCode = stateCode)))

/-- The controller's `buildWhereClause` helper: resolves the optional
district filter, with a single district-scoped upstream fetch+ingest
attempt when the district is missing locally (API or ingest errors are
caught and treated as not-found).  Returns the clause (or `none` for
district-not-found), the possibly grown storage, and the number of
upstream calls. -/
def buildWhereClause (F : Upstream) (cy : ℤ) (s : Storage) (finYear : JStr)
    (month : Option JStr) (district : Option JStr) (stateCode stateName : JStr) :
    Option WhereClause × Storage × ℕ :=
  let base : WhereClause := { finYear := finYear, month := month.map jToUpper,
                              districtCode := none }
  match district with
  | none => (some base, s, 0)
  | some d =>
    match findDistrict s d stateCode with
    | some dr => (some { base with districtCode := some dr.districtCode }, s, 0)
    | none =>
      match F stateName finYear (some d) with
      | .error _ => (none, s, 1)
      | .ok [] => (none, s, 1)
      | .ok (r :: rs) =>
        match processAndStoreDataBulk s (r :: rs) cy with
        | .error _ => (none, s, 1)
        | .ok (s2, _) =>
          match findDistrict s2 d stateCode with
          | some dr => (some { base with districtCode := some dr.districtCode }, s2, 1)
          | none => (none, s2, 1)

/-- The hardcoded fallback reporting periods of the controller. -/
def fallbackYears : List JStr := [js "2023-2024", js "2022-2023", js "2021-2022"]

/-- The controller's fallback-year loop: try each year in order; a
transport error, an empty result, or a failed ingest moves to the next
year; the first successfully ingested non-empty result breaks. -/
def fallbackLoop (F : Upstream) (cy : ℤ) (stateName : JStr) :
    Storage → List JStr → Storage × ℕ
  | s, [] => (s, 0)
  | s, y :: ys =>
    match F stateName y none with
    | .error _ =>
      let p := fallbackLoop F cy stateName s ys
      (p.1, p.2 + 1)
    | .ok [] =>
      let p := fallbackLoop F cy stateName s ys
      (p.1, p.2 + 1)
    | .ok (r :: rs) =>
      match processAndStoreDataBulk s (r :: rs) cy with
      | .error _ =>
        let p := fallbackLoop F cy stateName s ys
        (p.1, p.2 + 1)
      | .ok (s2, _) => (s2, 1)

/-- Steps 3–6 of the controller, entered with a resolved state: build the
where clause (district resolution), query locally, and on an empty result
perform exactly one more upstream fetch+ingest pass and re-query. -/
def afterState (F : Upstream) (cy : ℤ) (q : Query) (s : Storage) (st : StateRow) (n : ℕ) :
    Response × Storage × ℕ :=
  let bw := buildWhereClause F cy s q.finYear q.month q.district st.stateCode st.stateName
  match bw.1 with
  | none => (.notFoundDistrict, bw.2.1, n + bw.2.2)
  | some wc =>
    let data := fetchPerformanceData bw.2.1 wc st.stateCode
    if data ≠ [] then (.ok, bw.2.1, n + bw.2.2)
    else
      match F q.state q.finYear q.district with
      | .error _ => (.notFoundCriteria, bw.2.1, n + bw.2.2 + 1)
      | .ok [] => (.notFoundCriteria, bw.2.1, n + bw.2.2 + 1)
      | .ok (r :: rs) =>
        match processAndStoreDataBulk bw.2.1 (r :: rs) cy with
        | .error _ => (.notFoundCriteria, bw.2.1, n + bw.2.2 + 1)
        | .ok (s3, _) =>
          let bw2 := buildWhereClause F cy s3 q.finYear q.month q.district
            st.stateCode st.stateName
          match bw2.1 with
          | none => (.notFoundDistrictAfterFetch, bw2.2.1, n + bw.2.2 + 1 + bw2.2.2)
          | some wc2 =>
            let data2 := fetchPerformanceData bw2.2.1 wc2 st.stateCode
            if data2 ≠ [] then (.ok, bw2.2.1, n + bw.2.2 + 1 + bw2.2.2)
            else (.notFoundCriteria, bw2.2.1, n + bw.2.2 + 1 + bw2.2.2)

/-- `getDistrictData`: validation, state resolution with upstream
backfill and the ordered fallback-year sequence, then `afterState`. -/
def getDistrictData (F : Upstream) (cy : ℤ) (s : Storage) (q : Query) :
    Response × Storage × ℕ :=
  if q.state = [] ∨ q.finYear = [] then (.badRequest, s, 0)
  else
    match findState s q.state with
    | some st => afterState F cy q s st 0
    | none =>
      match F q.state q.finYear q.district with
      | .error _ => (.unavailable, s, 1)
      | .ok [] =>
        let p := fallbackLoop F cy q.state s fallbackYears
        match findState p.1 q.state with
        | none => (.notFoundStateNoData, p.1, 1 + p.2)
        | some _ => (.notFoundDataForYear, p.1, 1 + p.2)
      | .ok (r :: rs) =>
        match processAndStoreDataBulk s (r :: rs) cy with
        | .error _ => (.unavailable, s, 1)
        | .ok (s2, _) =>
          match findState s2 q.state with
          | none => (.notFoundState, s2, 1)
          | some st => afterState F cy q s2 st 1

/-- A query with fully local data. -/
def wQuery : Query :=
  { state := js "Kerala", district := some (js "Mysuru"),
    finYear := js "2024-2025", month := none }

/-- An upstream that always answers with no records. -/
def wUpstream : Upstream := fun _ _ _ => .ok []

/-- The state row that the sample ingest created. -/
def wState : StateRow := ⟨js "KL", js "KERALA"⟩

/-- The where clause the controller builds for `wQuery` over the sample
storage. -/
def wWC : WhereClause :=
  (buildWhereClause wUpstream 2024 sampleStorage (js "2024-2025") none
    (some (js "Mysuru")) (js "KL") (js "KERALA")).1.getD ⟨[], none, none⟩

/-- A query for a state unknown to the empty store. -/
def w5Query : Query :=
  { state := js "Kerala", district := none, finYear := js "2024-2025", month := none }

/-- An upstream with data only for the first fallback year. -/
def w5F : Upstream := fun _ y _ => if y = js "2023-2024" then .ok [sampleRecord] else .ok []

/-! ### Proofs -/

section Upsert

variable {α β κ σ : Type} [DecidableEq κ]
variable (ka : α → κ) (kb : β → κ) (mg : α → β → α) (ins : σ → β → α × σ)

lemma Evolves.trans {mg : α → β → α} {b a c : α}
    (h1 : Evolves mg b a) (h2 : Evolves mg a c) : Evolves mg b c := by
  induction h2 with
  | base => exact h1
  | step y a h ih => exact Evolves.step y _ ih

lemma Evolves.mg_eq {mg : α → β → α}
    (hover : ∀ r x y, mg (mg r x) y = mg r y) {b a : α}
    (h : Evolves mg b a) : ∀ y, mg a y = mg b y := by
  induction h with
  | base => intro y; rfl
  | step y a h ih => intro z; rw [hover, ih]

lemma ka_applyM (hmk : ∀ r x, ka r = kb x → ka (mg r x) = kb x)
    (x : β) (r : α) : ka (applyM ka kb mg x r) = ka r := by
  unfold applyM
  split
  · next h => rw [hmk _ _ h, h]
  · rfl

lemma find?_cons_pos {γ : Type} (p : γ → Bool) (a : γ) (l : List γ) (h : p a = true) :
    (a :: l).find? p = some a := by
  simp [List.find?, h]

lemma find?_cons_neg {γ : Type} (p : γ → Bool) (a : γ) (l : List γ) (h : p a = false) :
    (a :: l).find? p = l.find? p := by
  simp [List.find?, h]

lemma find?_append_some {γ : Type} {p : γ → Bool} {T L : List γ} {b : γ}
    (h : T.find? p = some b) : (T ++ L).find? p = some b := by
  induction T with
  | nil => simp [List.find?] at h
  | cons a T ih =>
    cases hp : p a
    · rw [find?_cons_neg p a T hp] at h
      rw [List.cons_append, find?_cons_neg p a (T ++ L) hp]
      exact ih h
    · rw [find?_cons_pos p a T hp] at h
      rw [List.cons_append, find?_cons_pos p a (T ++ L) hp]
      exact h

lemma find?_append_none {γ : Type} {p : γ → Bool} {T L : List γ}
    (h : T.find? p = none) : (T ++ L).find? p = L.find? p := by
  induction T with
  | nil => rfl
  | cons a T ih =>
    cases hp : p a
    · rw [find?_cons_neg p a T hp] at h
      rw [List.cons_append, find?_cons_neg p a (T ++ L) hp]
      exact ih h
    · rw [find?_cons_pos p a T hp] at h
      exact absurd h (by simp)

lemma find?_none_iff {γ : Type} {p : γ → Bool} {T : List γ} :
    T.find? p = none ↔ ∀ r ∈ T, p r = false := by
  constructor
  · intro h r hr
    have := List.find?_eq_none.1 h r hr
    simpa using this
  · intro h
    exact List.find?_eq_none.2 (fun x hx => by simp [h x hx])

/-- `find?` by key commutes with mapping an update over the table. -/
lemma find?_map_key (hmk : ∀ r x, ka r = kb x → ka (mg r x) = kb x)
    (x : β) (c : κ) (T : List α) :
    (T.map (applyM ka kb mg x)).find? (fun r => decide (ka r = c))
      = (T.find? (fun r => decide (ka r = c))).map (applyM ka kb mg x) := by
  induction T with
  | nil => rfl
  | cons a T ih =>
    by_cases h : ka a = c
    · have h2 : ka (applyM ka kb mg x a) = c := by rw [ka_applyM ka kb mg hmk]; exact h
      rw [List.map_cons, List.find?_cons_of_pos _ (by simpa using h2),
        List.find?_cons_of_pos _ (by simpa using h)]
      rfl
    · have h2 : ¬ ka (applyM ka kb mg x a) = c := by rw [ka_applyM ka kb mg hmk]; exact h
      rw [List.map_cons, List.find?_cons_of_neg _ (by simpa using h2),
        List.find?_cons_of_neg _ (by simpa using h)]
      exact ih

/-- The first row with a given key evolves by in-place updates through a
bulk upsert: it is never displaced and never deleted. -/
lemma find?_upsertFold (hmk : ∀ r x, ka r = kb x → ka (mg r x) = kb x)
    (hik : ∀ s x, ka ((ins s x).1) = kb x)
    (u : List β) : ∀ (T : List α) (s : σ) (c : κ) (base : α),
    T.find? (fun r => decide (ka r = c)) = some base →
    ∃ ρ, ((upsertFold ka kb mg ins T s u).1.1).find? (fun r => decide (ka r = c)) = some ρ
      ∧ Evolves mg base ρ := by
  induction u with
  | nil => intro T s c base h; exact ⟨base, h, Evolves.base⟩
  | cons x u ih =>
    intro T s c base h
    show ∃ ρ, ((upsertFold ka kb mg ins (upsert1 ka kb mg ins T s x).1.1
      (upsert1 ka kb mg ins T s x).1.2 u).1.1).find? _ = some ρ ∧ _
    unfold upsert1
    cases hf : T.find? (fun r => decide (ka r = kb x)) with
    | some r0 =>
      simp only [hf]
      have hmap : (T.map (applyM ka kb mg x)).find? (fun r => decide (ka r = c))
          = some (applyM ka kb mg x base) := by
        rw [find?_map_key ka kb mg hmk, h]; rfl
      obtain ⟨ρ, hρ, hev⟩ := ih (T.map (applyM ka kb mg x)) s c (applyM ka kb mg x base) hmap
      refine ⟨ρ, hρ, Evolves.trans ?_ hev⟩
      unfold applyM
      split
      · exact Evolves.step _ _ Evolves.base
      · exact Evolves.base
    | none =>
      simp only [hf]
      have happ : (T ++ [(ins s x).1]).find? (fun r => decide (ka r = c)) = some base :=
        find?_append_some h
      obtain ⟨ρ, hρ, hev⟩ := ih _ _ c base happ
      exact ⟨ρ, hρ, hev⟩

/-- After one upsert, the table contains a row with the input's key. -/
lemma upsert1_key_present (hmk : ∀ r x, ka r = kb x → ka (mg r x) = kb x)
    (hik : ∀ s x, ka ((ins s x).1) = kb x)
    (T : List α) (s : σ) (x : β) :
    ∃ base, ((upsert1 ka kb mg ins T s x).1.1).find? (fun r => decide (ka r = kb x))
      = some base := by
  unfold upsert1
  cases hf : T.find? (fun r => decide (ka r = kb x)) with
  | some r0 =>
    simp only [hf]
    have := find?_map_key ka kb mg hmk x (kb x) T
    rw [hf] at this
    exact ⟨applyM ka kb mg x r0, this⟩
  | none =>
    simp only [hf]
    refine ⟨(ins s x).1, ?_⟩
    rw [find?_append_none hf]
    simp [List.find?, hik]

/-- After one upsert with input `x`, every row whose key is `x`'s key is
saturated: merging `x` into it again changes nothing. -/
lemma upsert1_sat (hover : ∀ r x y, mg (mg r x) y = mg r y)
    (hself : ∀ s x, mg ((ins s x).1) x = (ins s x).1)
    (T : List α) (s : σ) (x : β) :
    ∀ r ∈ (upsert1 ka kb mg ins T s x).1.1, ka r = kb x → mg r x = r := by
  unfold upsert1
  cases hf : T.find? (fun r => decide (ka r = kb x)) with
  | some r0 =>
    simp only [hf]
    intro r hr hk
    obtain ⟨a, ha, rfl⟩ := List.mem_map.1 hr
    unfold applyM
    split
    · exact hover _ _ _
    · next hna =>
      unfold applyM at hk
      rw [if_neg hna] at hk
      exact absurd hk hna
  | none =>
    simp only [hf]
    intro r hr hk
    rcases List.mem_append.1 hr with h | h
    · have := find?_none_iff.1 hf r h
      simp at this
      exact absurd hk this
    · have : r = (ins s x).1 := by simpa using h
      subst this
      exact hself s x

/-- Saturation w.r.t. `x` is preserved by upserting inputs with other
keys. -/
lemma sat_preserved (hmk : ∀ r x, ka r = kb x → ka (mg r x) = kb x)
    (hik : ∀ s x, ka ((ins s x).1) = kb x)
    (x : β) (u : List β) : ∀ (T : List α) (s : σ),
    (∀ r ∈ T, ka r = kb x → mg r x = r) → (∀ y ∈ u, kb y ≠ kb x) →
    ∀ r ∈ (upsertFold ka kb mg ins T s u).1.1, ka r = kb x → mg r x = r := by
  induction u with
  | nil => intro T s hsat _ r hr; exact hsat r hr
  | cons y u ih =>
    intro T s hsat hkeys
    show ∀ r ∈ (upsertFold ka kb mg ins (upsert1 ka kb mg ins T s y).1.1
      (upsert1 ka kb mg ins T s y).1.2 u).1.1, _
    refine ih _ _ ?_ (fun z hz => hkeys z (List.mem_cons_of_mem _ hz))
    have hy : kb y ≠ kb x := hkeys y (List.mem_cons_self _ _)
    unfold upsert1
    cases hf : T.find? (fun r => decide (ka r = kb y)) with
    | some r0 =>
      simp only [hf]
      intro r hr hk
      obtain ⟨a, ha, rfl⟩ := List.mem_map.1 hr
      unfold applyM
      unfold applyM at hk
      split
      · next hay =>
        rw [if_pos hay] at hk
        rw [hmk _ _ hay] at hk
        exact absurd hk hy
      · next hay =>
        rw [if_neg hay] at hk
        exact hsat a ha hk
    | none =>
      simp only [hf]
      intro r hr hk
      rcases List.mem_append.1 hr with h | h
      · exact hsat r h hk
      · have : r = (ins s y).1 := by simpa using h
        subst this
        rw [hik] at hk
        exact absurd hk hy

/-- Mapping the `x`-update over the table is invisible to a subsequent
bulk upsert, provided the `x`-keyed rows are saturated or `x`'s key recurs
in the input. -/
lemma map_id_of_eq {γ : Type} {f : γ → γ} {T : List γ}
    (h : ∀ a ∈ T, f a = a) : T.map f = T := by
  induction T with
  | nil => rfl
  | cons a T ih =>
    simp only [List.map_cons]
    rw [h a (List.mem_cons_self a T), ih (fun b hb => h b (List.mem_cons_of_mem a hb))]

lemma map_fun_congr {γ δ : Type} {f g : γ → δ} {T : List γ}
    (h : ∀ a ∈ T, f a = g a) : T.map f = T.map g := by
  induction T with
  | nil => rfl
  | cons a T ih =>
    simp only [List.map_cons]
    rw [h a (List.mem_cons_self a T), ih (fun b hb => h b (List.mem_cons_of_mem a hb))]

/-- Mapping the `x`-update over the table is invisible to a subsequent
bulk upsert, provided the `x`-keyed rows are saturated or `x`'s key recurs
in the input. -/
lemma upsertFold_map_invisible (hmk : ∀ r x, ka r = kb x → ka (mg r x) = kb x)
    (hik : ∀ s x, ka ((ins s x).1) = kb x)
    (hover : ∀ r x y, mg (mg r x) y = mg r y)
    (x : β) (u : List β) : ∀ (T : List α) (s : σ),
    ((∀ r ∈ T, ka r = kb x → mg r x = r) ∨ (∃ y ∈ u, kb y = kb x)) →
    upsertFold ka kb mg ins (T.map (applyM ka kb mg x)) s u
      = upsertFold ka kb mg ins T s u := by
  induction u with
  | nil =>
    intro T s hyp
    rcases hyp with hsat | ⟨y, hy, _⟩
    · show ((T.map (applyM ka kb mg x), s), ([] : List α)) = ((T, s), [])
      rw [map_id_of_eq (fun a ha => by
        unfold applyM
        split
        · next hk => exact hsat a ha hk
        · rfl)]
    · exact absurd hy (List.not_mem_nil y)
  | cons y u ih =>
    intro T s hyp
    by_cases hxy : kb y = kb x
    · -- same key as x
      cases hf : T.find? (fun r => decide (ka r = kb y)) with
      | some r0 =>
        have hr0k : ka r0 = kb y := by simpa using List.find?_some hf
        have hr0x : ka r0 = kb x := hr0k.trans hxy
        have hfM : (T.map (applyM ka kb mg x)).find? (fun r => decide (ka r = kb y))
            = some (applyM ka kb mg x r0) := by
          rw [find?_map_key ka kb mg hmk, hf]; rfl
        have hMr0 : applyM ka kb mg x r0 = mg r0 x := by
          unfold applyM; rw [if_pos hr0x]
        have e1 : upsert1 ka kb mg ins (T.map (applyM ka kb mg x)) s y
            = (((T.map (applyM ka kb mg x)).map (applyM ka kb mg y), s),
               mg (applyM ka kb mg x r0) y) := by
          unfold upsert1; rw [hfM]
        have e2 : upsert1 ka kb mg ins T s y
            = ((T.map (applyM ka kb mg y), s), mg r0 y) := by
          unfold upsert1; rw [hf]
        have htab : (T.map (applyM ka kb mg x)).map (applyM ka kb mg y)
            = T.map (applyM ka kb mg y) := by
          rw [List.map_map]
          refine map_fun_congr (fun a ha => ?_)
          show applyM ka kb mg y (applyM ka kb mg x a) = applyM ka kb mg y a
          by_cases hax : ka a = kb x
          · have h1 : applyM ka kb mg x a = mg a x := by unfold applyM; rw [if_pos hax]
            have h2 : ka (mg a x) = kb x := hmk a x hax
            have hay : ka a = kb y := hax.trans hxy.symm
            rw [h1]
            unfold applyM
            rw [if_pos (h2.trans hxy.symm), if_pos hay]
            exact hover a x y
          · have h1 : applyM ka kb mg x a = a := by unfold applyM; rw [if_neg hax]
            rw [h1]
        have hret : mg (applyM ka kb mg x r0) y = mg r0 y := by
          rw [hMr0]; exact hover r0 x y
        simp only [upsertFold, e1, e2, htab, hret]
      | none =>
        have hTid : T.map (applyM ka kb mg x) = T := by
          refine map_id_of_eq (fun a ha => ?_)
          unfold applyM
          rw [if_neg]
          intro hk
          have := find?_none_iff.1 hf a ha
          simp at this
          exact this (hk.trans hxy.symm)
        rw [hTid]
    · -- different key from x
      cases hf : T.find? (fun r => decide (ka r = kb y)) with
      | some r0 =>
        have hr0k : ka r0 = kb y := by simpa using List.find?_some hf
        have hfM : (T.map (applyM ka kb mg x)).find? (fun r => decide (ka r = kb y))
            = some (applyM ka kb mg x r0) := by
          rw [find?_map_key ka kb mg hmk, hf]; rfl
        have hMr0 : applyM ka kb mg x r0 = r0 := by
          unfold applyM
          rw [if_neg (fun h => hxy ((hr0k.symm.trans h).symm ▸ rfl))]
        have e1 : upsert1 ka kb mg ins (T.map (applyM ka kb mg x)) s y
            = (((T.map (applyM ka kb mg x)).map (applyM ka kb mg y), s),
               mg (applyM ka kb mg x r0) y) := by
          unfold upsert1; rw [hfM]
        have e2 : upsert1 ka kb mg ins T s y
            = ((T.map (applyM ka kb mg y), s), mg r0 y) := by
          unfold upsert1; rw [hf]
        have hcomm : (T.map (applyM ka kb mg x)).map (applyM ka kb mg y)
            = (T.map (applyM ka kb mg y)).map (applyM ka kb mg x) := by
          rw [List.map_map, List.map_map]
          refine map_fun_congr (fun a ha => ?_)
          show applyM ka kb mg y (applyM ka kb mg x a)
            = applyM ka kb mg x (applyM ka kb mg y a)
          by_cases hax : ka a = kb x
          · have h1 : applyM ka kb mg x a = mg a x := by unfold applyM; rw [if_pos hax]
            have h2 : ka (mg a x) = kb x := hmk a x hax
            have hay : ¬ ka a = kb y := fun h => hxy ((h.symm.trans hax).symm ▸ rfl)
            have h3 : applyM ka kb mg y a = a := by unfold applyM; rw [if_neg hay]
            rw [h1, h3, h1]
            unfold applyM
            rw [if_neg (fun h => hxy ((h2.symm.trans h).symm ▸ rfl))]
          · by_cases hay : ka a = kb y
            · have h1 : applyM ka kb mg x a = a := by unfold applyM; rw [if_neg hax]
              have h2 : applyM ka kb mg y a = mg a y := by unfold applyM; rw [if_pos hay]
              have h3 : ka (mg a y) = kb y := hmk a y hay
              rw [h1, h2]
              unfold applyM
              rw [if_neg (fun h => hxy ((h3.symm.trans h).symm ▸ rfl))]
            · have h1 : applyM ka kb mg x a = a := by unfold applyM; rw [if_neg hax]
              have h2 : applyM ka kb mg y a = a := by unfold applyM; rw [if_neg hay]
              rw [h1, h2, h1]
        have hyp2 : (∀ r ∈ T.map (applyM ka kb mg y), ka r = kb x → mg r x = r)
            ∨ (∃ z ∈ u, kb z = kb x) := by
          rcases hyp with hsat | ⟨z, hz, hzk⟩
          · left
            intro r hr hk
            obtain ⟨a, ha, rfl⟩ := List.mem_map.1 hr
            have hka : ka a = kb x := by rw [← ka_applyM ka kb mg hmk y a]; exact hk
            have hay : ¬ ka a = kb y := fun h => hxy ((h.symm.trans hka).symm ▸ rfl)
            have h1 : applyM ka kb mg y a = a := by unfold applyM; rw [if_neg hay]
            rw [h1]
            exact hsat a ha hka
          · right
            rcases List.mem_cons.1 hz with rfl | hz2
            · exact absurd hzk hxy
            · exact ⟨z, hz2, hzk⟩
        simp only [upsertFold, e1, e2, hMr0, hcomm]
        rw [ih (T.map (applyM ka kb mg y)) s hyp2]
      | none =>
        have hfM : (T.map (applyM ka kb mg x)).find? (fun r => decide (ka r = kb y))
            = none := by
          rw [find?_map_key ka kb mg hmk, hf]; rfl
        have e1 : upsert1 ka kb mg ins (T.map (applyM ka kb mg x)) s y
            = ((T.map (applyM ka kb mg x) ++ [(ins s y).1], (ins s y).2), (ins s y).1) := by
          unfold upsert1; rw [hfM]
        have e2 : upsert1 ka kb mg ins T s y
            = ((T ++ [(ins s y).1], (ins s y).2), (ins s y).1) := by
          unfold upsert1; rw [hf]
        have happ : T.map (applyM ka kb mg x) ++ [(ins s y).1]
            = (T ++ [(ins s y).1]).map (applyM ka kb mg x) := by
          rw [List.map_append]
          congr 1
          simp only [List.map_cons, List.map_nil]
          congr 1
          unfold applyM
          rw [if_neg (fun h => hxy (((hik s y).symm.trans h).symm ▸ rfl))]
        have hyp2 : (∀ r ∈ T ++ [(ins s y).1], ka r = kb x → mg r x = r)
            ∨ (∃ z ∈ u, kb z = kb x) := by
          rcases hyp with hsat | ⟨z, hz, hzk⟩
          · left
            intro r hr hk
            rcases List.mem_append.1 hr with h | h
            · exact hsat r h hk
            · have : r = (ins s y).1 := by simpa using h
              subst this
              rw [hik] at hk
              exact absurd hk hxy
          · right
            rcases List.mem_cons.1 hz with rfl | hz2
            · exact absurd hzk hxy
            · exact ⟨z, hz2, hzk⟩
        simp only [upsertFold, e1, e2]
        rw [happ, ih (T ++ [(ins s y).1]) (ins s y).2 hyp2]

lemma upsert1_eq_update (T : List α) (s : σ) (x : β) (r0 : α)
    (hf : T.find? (fun r => decide (ka r = kb x)) = some r0) :
    upsert1 ka kb mg ins T s x = ((T.map (applyM ka kb mg x), s), mg r0 x) := by
  unfold upsert1; rw [hf]

lemma upsert1_eq_insert (T : List α) (s : σ) (x : β)
    (hf : T.find? (fun r => decide (ka r = kb x)) = none) :
    upsert1 ka kb mg ins T s x = ((T ++ [(ins s x).1], (ins s x).2), (ins s x).1) := by
  unfold upsert1; rw [hf]

lemma upsertFold_cons (T : List α) (s : σ) (x : β) (u : List β) :
    upsertFold ka kb mg ins T s (x :: u)
      = ((upsertFold ka kb mg ins (upsert1 ka kb mg ins T s x).1.1
            (upsert1 ka kb mg ins T s x).1.2 u).1,
         (upsert1 ka kb mg ins T s x).2
           :: (upsertFold ka kb mg ins (upsert1 ka kb mg ins T s x).1.1
                (upsert1 ka kb mg ins T s x).1.2 u).2) := rfl

/-- The central idempotence theorem: re-running a bulk upsert with the same
inputs on its own output changes nothing — same table, same auto-increment
state, same returned rows. -/
theorem upsertFold_idem (hmk : ∀ r x, ka r = kb x → ka (mg r x) = kb x)
    (hik : ∀ s x, ka ((ins s x).1) = kb x)
    (hover : ∀ r x y, mg (mg r x) y = mg r y)
    (hself : ∀ s x, mg ((ins s x).1) x = (ins s x).1)
    (u : List β) : ∀ (T : List α) (s : σ),
    upsertFold ka kb mg ins (upsertFold ka kb mg ins T s u).1.1
      (upsertFold ka kb mg ins T s u).1.2 u
      = upsertFold ka kb mg ins T s u := by
  induction u with
  | nil => intro T s; rfl
  | cons x u ih =>
    intro T s
    cases hf : T.find? (fun r => decide (ka r = kb x)) with
    | some r0 =>
      have hr0k : ka r0 = kb x := by simpa using List.find?_some hf
      have he := upsert1_eq_update ka kb mg ins T s x r0 hf
      have hbase : (T.map (applyM ka kb mg x)).find? (fun r => decide (ka r = kb x))
          = some (applyM ka kb mg x r0) := by
        rw [find?_map_key ka kb mg hmk, hf]; rfl
      obtain ⟨ρ, hρ, hev⟩ := find?_upsertFold ka kb mg ins hmk hik u
        (T.map (applyM ka kb mg x)) s (kb x) (applyM ka kb mg x r0) hbase
      have hMr0 : applyM ka kb mg x r0 = mg r0 x := by
        unfold applyM; rw [if_pos hr0k]
      have hmgρ : mg ρ x = mg r0 x := by
        rw [Evolves.mg_eq hover hev x, hMr0, hover]
      have hsat : ∀ r ∈ T.map (applyM ka kb mg x), ka r = kb x → mg r x = r := by
        intro r hr hk
        obtain ⟨a, ha, rfl⟩ := List.mem_map.1 hr
        unfold applyM
        unfold applyM at hk
        split
        · exact hover _ _ _
        · next hna =>
          rw [if_neg hna] at hk
          exact absurd hk hna
      have hinvis := upsertFold_map_invisible ka kb mg ins hmk hik hover x u
        (upsertFold ka kb mg ins (T.map (applyM ka kb mg x)) s u).1.1
        (upsertFold ka kb mg ins (T.map (applyM ka kb mg x)) s u).1.2
        (by
          by_cases hex : ∃ y ∈ u, kb y = kb x
          · exact Or.inr hex
          · left
            push_neg at hex
            exact sat_preserved ka kb mg ins hmk hik x u
              (T.map (applyM ka kb mg x)) s hsat hex)
      have he2 := upsert1_eq_update ka kb mg ins
        (upsertFold ka kb mg ins (T.map (applyM ka kb mg x)) s u).1.1
        (upsertFold ka kb mg ins (T.map (applyM ka kb mg x)) s u).1.2 x ρ hρ
      rw [upsertFold_cons ka kb mg ins T s x u, he]
      rw [upsertFold_cons ka kb mg ins _ _ x u, he2, hinvis,
        ih (T.map (applyM ka kb mg x)) s, hmgρ]
    | none =>
      have he := upsert1_eq_insert ka kb mg ins T s x hf
      have hbase : (T ++ [(ins s x).1]).find? (fun r => decide (ka r = kb x))
          = some ((ins s x).1) := by
        rw [find?_append_none hf]
        exact find?_cons_pos _ _ _ (by simp [hik])
      obtain ⟨ρ, hρ, hev⟩ := find?_upsertFold ka kb mg ins hmk hik u
        (T ++ [(ins s x).1]) (ins s x).2 (kb x) ((ins s x).1) hbase
      have hmgρ : mg ρ x = (ins s x).1 := by
        rw [Evolves.mg_eq hover hev x, hself]
      have hsat : ∀ r ∈ T ++ [(ins s x).1], ka r = kb x → mg r x = r := by
        intro r hr hk
        rcases List.mem_append.1 hr with h | h
        · have := find?_none_iff.1 hf r h
          simp at this
          exact absurd hk this
        · have : r = (ins s x).1 := by simpa using h
          subst this
          exact hself s x
      have hinvis := upsertFold_map_invisible ka kb mg ins hmk hik hover x u
        (upsertFold ka kb mg ins (T ++ [(ins s x).1]) (ins s x).2 u).1.1
        (upsertFold ka kb mg ins (T ++ [(ins s x).1]) (ins s x).2 u).1.2
        (by
          by_cases hex : ∃ y ∈ u, kb y = kb x
          · exact Or.inr hex
          · left
            push_neg at hex
            exact sat_preserved ka kb mg ins hmk hik x u
              (T ++ [(ins s x).1]) (ins s x).2 hsat hex)
      have he2 := upsert1_eq_update ka kb mg ins
        (upsertFold ka kb mg ins (T ++ [(ins s x).1]) (ins s x).2 u).1.1
        (upsertFold ka kb mg ins (T ++ [(ins s x).1]) (ins s x).2 u).1.2 x ρ hρ
      rw [upsertFold_cons ka kb mg ins T s x u, he]
      rw [upsertFold_cons ka kb mg ins _ _ x u, he2, hinvis,
        ih (T ++ [(ins s x).1]) (ins s x).2, hmgρ]

/-- Every row of the upserted table satisfies `P` when the old rows do and
`P` is preserved by the inputs' updates and inserts. -/
lemma upsertFold_closure (P : α → Prop) (u : List β) : ∀ (T : List α) (s : σ),
    (∀ r ∈ T, P r) →
    (∀ r x, P r → x ∈ u → ka r = kb x → P (mg r x)) →
    (∀ (t : σ) x, x ∈ u → P ((ins t x).1)) →
    ∀ r ∈ (upsertFold ka kb mg ins T s u).1.1, P r := by
  induction u with
  | nil => intro T s hT _ _ r hr; exact hT r hr
  | cons y u ih =>
    intro T s hT hm hi
    show ∀ r ∈ (upsertFold ka kb mg ins (upsert1 ka kb mg ins T s y).1.1
      (upsert1 ka kb mg ins T s y).1.2 u).1.1, P r
    refine ih _ _ ?_ (fun r x hP hx => hm r x hP (List.mem_cons_of_mem _ hx))
      (fun t x hx => hi t x (List.mem_cons_of_mem _ hx))
    unfold upsert1
    cases hf : T.find? (fun r => decide (ka r = kb y)) with
    | some r0 =>
      simp only [hf]
      intro r hr
      obtain ⟨a, ha, rfl⟩ := List.mem_map.1 hr
      unfold applyM
      split
      · next hk => exact hm a y (hT a ha) (List.mem_cons_self _ _) hk
      · exact hT a ha
    | none =>
      simp only [hf]
      intro r hr
      rcases List.mem_append.1 hr with h | h
      · exact hT r h
      · have : r = (ins s y).1 := by simpa using h
        subst this
        exact hi s y (List.mem_cons_self _ _)

/-- The `f`-image of the table is monotone under bulk upsert, whenever
in-place updates preserve `f`. -/
lemma upsertFold_exists_mono {ι : Type} (f : α → ι)
    (hf : ∀ r x, ka r = kb x → f (mg r x) = f r) (v : ι) (u : List β) :
    ∀ (T : List α) (s : σ),
    (∃ r ∈ T, f r = v) → ∃ r ∈ (upsertFold ka kb mg ins T s u).1.1, f r = v := by
  induction u with
  | nil => intro T s h; exact h
  | cons y u ih =>
    intro T s h
    show ∃ r ∈ (upsertFold ka kb mg ins (upsert1 ka kb mg ins T s y).1.1
      (upsert1 ka kb mg ins T s y).1.2 u).1.1, f r = v
    refine ih _ _ ?_
    obtain ⟨r, hr, hrv⟩ := h
    unfold upsert1
    cases hf2 : T.find? (fun r => decide (ka r = kb y)) with
    | some r0 =>
      simp only [hf2]
      refine ⟨applyM ka kb mg y r, List.mem_map_of_mem _ hr, ?_⟩
      unfold applyM
      split
      · next hk => rw [hf r y hk]; exact hrv
      · exact hrv
    | none =>
      simp only [hf2]
      exact ⟨r, List.mem_append_left _ hr, hrv⟩

/-- Every returned row's `f`-value is realised by some row of the final
table (updates preserve `f`). -/
lemma upsertFold_returns_image {ι : Type} (f : α → ι)
    (hf : ∀ r x, ka r = kb x → f (mg r x) = f r) (u : List β) :
    ∀ (T : List α) (s : σ),
    ∀ p ∈ (upsertFold ka kb mg ins T s u).2,
      ∃ r ∈ (upsertFold ka kb mg ins T s u).1.1, f r = f p := by
  induction u with
  | nil => intro T s p hp; exact absurd hp (List.not_mem_nil p)
  | cons y u ih =>
    intro T s p hp
    rw [upsertFold_cons] at hp ⊢
    rcases List.mem_cons.1 hp with rfl | hp2
    · -- the head return is a member of the intermediate table
      refine upsertFold_exists_mono ka kb mg ins f hf _ u _ _ ?_
      unfold upsert1
      cases hf2 : T.find? (fun r => decide (ka r = kb y)) with
      | some r0 =>
        simp only [hf2]
        have hr0 : r0 ∈ T := List.mem_of_find?_eq_some hf2
        have hk : ka r0 = kb y := by simpa using List.find?_some hf2
        refine ⟨applyM ka kb mg y r0, List.mem_map_of_mem _ hr0, ?_⟩
        unfold applyM
        rw [if_pos hk]
      | none =>
        simp only [hf2]
        exact ⟨(ins s y).1, List.mem_append_right _ (by simp), rfl⟩
    · exact ih _ _ p hp2

end Upsert

lemma bulkUpsertStates_idem (T u : List StateRow) :
    bulkUpsertStates (bulkUpsertStates T u) u = bulkUpsertStates T u := by
  unfold bulkUpsertStates
  exact congrArg (fun p => p.1.1)
    (upsertFold_idem (fun r => r.stateCode) (fun x => x.stateCode)
      (fun r x => { r with stateName := x.stateName }) (fun (t : Unit) x => (x, t))
      (fun r x h => h) (fun t x => rfl) (fun r x y => rfl) (fun t x => rfl) u T ())

lemma bulkUpsertFinancialYears_idem (T u : List FinYearRow) :
    bulkUpsertFinancialYears (bulkUpsertFinancialYears T u) u
      = bulkUpsertFinancialYears T u := by
  unfold bulkUpsertFinancialYears
  exact congrArg (fun p => p.1.1)
    (upsertFold_idem (fun r => r.finYear) (fun x => x.finYear)
      (fun r x => { r with startYear := x.startYear, endYear := x.endYear })
      (fun (t : Unit) x => (x, t))
      (fun r x h => h) (fun t x => rfl) (fun r x y => rfl) (fun t x => rfl) u T ())

lemma bulkUpsertExtendedMetrics_idem (T : List ExtRow) (ps : List PerfRow)
    (b : List ApiRecord) :
    bulkUpsertExtendedMetrics (bulkUpsertExtendedMetrics T ps b) ps b
      = bulkUpsertExtendedMetrics T ps b := by
  unfold bulkUpsertExtendedMetrics
  exact congrArg (fun p => p.1.1)
    (upsertFold_idem (fun r => r.performanceId) (fun x => x.id)
      (fun r _ => r) (fun (t : Unit) x => (extRowOf x, t))
      (fun r x h => h) (fun t x => rfl) (fun r x y => rfl) (fun t x => rfl) ps T ())

lemma bulkUpsertDistricts_ok_idem (S : List StateRow) (T u : List DistrictRow)
    (d1 : List DistrictRow) (h : bulkUpsertDistricts S T u = .ok d1) :
    bulkUpsertDistricts S d1 u = .ok d1 := by
  unfold bulkUpsertDistricts at h ⊢
  by_cases hc : u.all (fun x => S.any (fun st => decide (st.stateCode = x.stateCode))) = true
  · rw [if_pos hc] at h ⊢
    injection h with h2
    rw [← h2]
    exact congrArg (fun (l : List DistrictRow) => Except.ok (ε := IngestErr) l)
      (congrArg (fun p => p.1.1)
        (upsertFold_idem (fun r => r.districtCode) (fun x => x.districtCode)
          (fun r x => { r with districtName := x.districtName, stateCode := x.stateCode })
          (fun (t : Unit) x => (x, t))
          (fun r x hk => hk) (fun t x => rfl) (fun r x y => rfl) (fun t x => rfl) u T ()))
  · rw [if_neg hc] at h
    exact absurd h (by simp)

lemma bulkUpsertPerformance_ok_idem (D : List DistrictRow) (F : List FinYearRow)
    (T : List PerfRow) (n : ℕ) (u : List PerfIn) (p1 : List PerfRow) (n1 : ℕ)
    (recs : List PerfRow)
    (h : bulkUpsertPerformance D F T n u = .ok ((p1, n1), recs)) :
    bulkUpsertPerformance D F p1 n1 u = .ok ((p1, n1), recs) := by
  unfold bulkUpsertPerformance at h ⊢
  by_cases hc1 : u.all (fun x => D.any (fun d => decide (d.districtCode = x.districtCode))) = true
  · rw [if_pos hc1] at h ⊢
    by_cases hc2 : u.all (fun x => F.any (fun fy => decide (fy.finYear = x.finYear))) = true
    · rw [if_pos hc2] at h ⊢
      injection h with h2
      have hidem := upsertFold_idem (fun r => perfKey r.data) perfKey
        (fun r x => ⟨r.id, x⟩) (fun n x => (⟨n, x⟩, n + 1))
        (fun r x hk => rfl) (fun t x => rfl) (fun r x y => rfl) (fun t x => rfl)
        u T n
      rw [h2] at hidem
      exact congrArg Except.ok hidem
    · rw [if_neg hc2] at h
      exact absurd h (by simp)
  · rw [if_neg hc1] at h
    exact absurd h (by simp)

/-- C1. Idempotent ingestion: a successful bulk ingest, re-run on its own
committed storage with the same batch, commits the identical storage and
returns the identical rows — no new PerformanceRecord for any composite
key, the ExtendedMetrics table unchanged. -/
theorem ingest_idempotent (s s₁ : Storage) (b : List ApiRecord) (cy : ℤ)
    (recs : List PerfRow)
    (h : processAndStoreDataBulk s b cy = .ok (s₁, recs)) :
    processAndStoreDataBulk s₁ b cy = .ok (s₁, recs)
      ∧ (processAndStoreDataBulkRun s₁ b cy).1.performances.length
          = s₁.performances.length
      ∧ (processAndStoreDataBulkRun s₁ b cy).1.extendedMetrics.length
          = s₁.extendedMetrics.length := by
  simp only [processAndStoreDataBulk] at h
  cases hd : bulkUpsertDistricts (bulkUpsertStates s.states (extractUniqueStates b))
      s.districts (extractUniqueDistricts b) with
  | error e =>
    rw [hd] at h
    simp at h
  | ok d1 =>
    rw [hd] at h
    simp only [] at h
    cases hp : bulkUpsertPerformance d1
        (bulkUpsertFinancialYears s.finYears (extractUniqueFinYears b cy))
        s.performances s.nextPerfId (preparePerformanceRecords b) with
    | error e =>
      rw [hp] at h
      simp at h
    | ok pr =>
      obtain ⟨⟨p1, n1⟩, recs0⟩ := pr
      rw [hp] at h
      simp only [Except.ok.injEq, Prod.mk.injEq] at h
      obtain ⟨hs, hrecs⟩ := h
      subst hrecs
      subst hs
      have hmain : processAndStoreDataBulk
          { states := bulkUpsertStates s.states (extractUniqueStates b),
            districts := d1,
            finYears := bulkUpsertFinancialYears s.finYears (extractUniqueFinYears b cy),
            performances := p1, nextPerfId := n1,
            extendedMetrics := bulkUpsertExtendedMetrics s.extendedMetrics recs0 b } b cy
          = .ok ({ states := bulkUpsertStates s.states (extractUniqueStates b),
                   districts := d1,
                   finYears := bulkUpsertFinancialYears s.finYears
                     (extractUniqueFinYears b cy),
                   performances := p1, nextPerfId := n1,
                   extendedMetrics :=
                     bulkUpsertExtendedMetrics s.extendedMetrics recs0 b }, recs0) := by
        simp only [processAndStoreDataBulk]
        rw [bulkUpsertStates_idem]
        rw [bulkUpsertDistricts_ok_idem _ _ _ _ hd]
        simp only []
        rw [bulkUpsertFinancialYears_idem]
        rw [bulkUpsertPerformance_ok_idem _ _ _ _ _ _ _ _ hp]
        simp only []
        rw [bulkUpsertExtendedMetrics_idem]
      refine ⟨hmain, ?_, ?_⟩ <;>
        simp only [processAndStoreDataBulkRun, hmain]

set_option maxRecDepth 100000 in
/-- C1 witness: a concrete successful ingest, re-run on its own output. -/
theorem ingest_idempotent_witness :
    processAndStoreDataBulk sampleStorage [sampleRecord] 2024
        = .ok (sampleStorage, sampleRecs)
      ∧ (processAndStoreDataBulkRun sampleStorage [sampleRecord] 2024).1.performances.length
          = sampleStorage.performances.length
      ∧ (processAndStoreDataBulkRun sampleStorage [sampleRecord] 2024).1.extendedMetrics.length
          = sampleStorage.extendedMetrics.length :=
  ingest_idempotent emptyStorage sampleStorage [sampleRecord] 2024 sampleRecs (by rfl)

/-- C3. Atomic, ordered ingestion: a failed ingest leaves storage exactly
as before the call and propagates the error; a successful ingest commits
exactly the five steps applied in the fixed order States → Districts →
FinancialYears → PerformanceRecords → ExtendedMetrics, each consuming the
previous step's output. -/
theorem ingest_atomic_ordered (s : Storage) (b : List ApiRecord) (cy : ℤ) :
    (∀ e : IngestErr, (processAndStoreDataBulkRun s b cy).2 = .error e →
        (processAndStoreDataBulkRun s b cy).1 = s)
    ∧ (∀ recs : List PerfRow, (processAndStoreDataBulkRun s b cy).2 = .ok recs →
        ∃ d1 p1 n1,
          bulkUpsertDistricts (bulkUpsertStates s.states (extractUniqueStates b))
              s.districts (extractUniqueDistricts b) = .ok d1
          ∧ bulkUpsertPerformance d1
              (bulkUpsertFinancialYears s.finYears (extractUniqueFinYears b cy))
              s.performances s.nextPerfId (preparePerformanceRecords b)
              = .ok ((p1, n1), recs)
          ∧ (processAndStoreDataBulkRun s b cy).1
              = { states := bulkUpsertStates s.states (extractUniqueStates b),
                  districts := d1,
                  finYears := bulkUpsertFinancialYears s.finYears
                    (extractUniqueFinYears b cy),
                  performances := p1, nextPerfId := n1,
                  extendedMetrics :=
                    bulkUpsertExtendedMetrics s.extendedMetrics recs b }) := by
  cases hall : processAndStoreDataBulk s b cy with
  | error e =>
    have hR : processAndStoreDataBulkRun s b cy = (s, .error e) := by
      simp only [processAndStoreDataBulkRun, hall]
    rw [hR]
    exact ⟨fun e2 h2 => rfl, fun recs h2 => by simp at h2⟩
  | ok pr =>
    obtain ⟨s1, recs0⟩ := pr
    have hR : processAndStoreDataBulkRun s b cy = (s1, .ok recs0) := by
      simp only [processAndStoreDataBulkRun, hall]
    rw [hR]
    refine ⟨fun e2 h2 => by simp at h2, fun recs h2 => ?_⟩
    simp only [Except.ok.injEq] at h2
    subst h2
    -- invert the pipeline
    simp only [processAndStoreDataBulk] at hall
    cases hd : bulkUpsertDistricts (bulkUpsertStates s.states (extractUniqueStates b))
        s.districts (extractUniqueDistricts b) with
    | error e =>
      rw [hd] at hall
      simp at hall
    | ok d1 =>
      rw [hd] at hall
      simp only [] at hall
      cases hp : bulkUpsertPerformance d1
          (bulkUpsertFinancialYears s.finYears (extractUniqueFinYears b cy))
          s.performances s.nextPerfId (preparePerformanceRecords b) with
      | error e =>
        rw [hp] at hall
        simp at hall
      | ok pr2 =>
        obtain ⟨⟨p1, n1⟩, recs1⟩ := pr2
        rw [hp] at hall
        simp only [Except.ok.injEq, Prod.mk.injEq] at hall
        obtain ⟨hs1, hr1⟩ := hall
        subst hr1
        exact ⟨d1, p1, n1, rfl, hp, hs1.symm⟩

set_option maxRecDepth 100000 in
/-- C3 witness: a concrete failing batch rolls back to the exact prior
storage, with the error propagated. -/
theorem ingest_atomic_ordered_witness :
    (processAndStoreDataBulkRun emptyStorage [badRecordA, badRecordB] 2024).1 = emptyStorage
      ∧ (processAndStoreDataBulkRun emptyStorage [badRecordA, badRecordB] 2024).2
          = .error IngestErr.fkDistrictState :=
  ⟨(ingest_atomic_ordered emptyStorage [badRecordA, badRecordB] 2024).1
      IngestErr.fkDistrictState (by rfl),
   by rfl⟩

/-- C4. Referential order: a successful ingest preserves the
referential-integrity invariant — after the commit every District's
stateCode, every PerformanceRecord's districtCode (and finYear), and
every ExtendedMetrics row's performanceId resolve, for the whole batch. -/
theorem referential_order (s s₁ : Storage) (b : List ApiRecord) (cy : ℤ)
    (recs : List PerfRow) (hinv : RefInv s)
    (h : processAndStoreDataBulk s b cy = .ok (s₁, recs)) : RefInv s₁ := by
  obtain ⟨hinvD, hinvP, hinvE⟩ := hinv
  simp only [processAndStoreDataBulk] at h
  cases hd : bulkUpsertDistricts (bulkUpsertStates s.states (extractUniqueStates b))
      s.districts (extractUniqueDistricts b) with
  | error e =>
    rw [hd] at h
    simp at h
  | ok d1 =>
    rw [hd] at h
    simp only [] at h
    cases hp : bulkUpsertPerformance d1
        (bulkUpsertFinancialYears s.finYears (extractUniqueFinYears b cy))
        s.performances s.nextPerfId (preparePerformanceRecords b) with
    | error e =>
      rw [hp] at h
      simp at h
    | ok pr =>
      obtain ⟨⟨p1, n1⟩, recs0⟩ := pr
      rw [hp] at h
      simp only [Except.ok.injEq, Prod.mk.injEq] at h
      obtain ⟨hs, hrecs⟩ := h
      subst hrecs
      subst hs
      -- unpack the two FK-checked steps
      unfold bulkUpsertDistricts at hd
      by_cases hcD : (extractUniqueDistricts b).all (fun x =>
          (bulkUpsertStates s.states (extractUniqueStates b)).any
            (fun st => decide (st.stateCode = x.stateCode))) = true
      case neg => rw [if_neg hcD] at hd; exact absurd hd (by simp)
      rw [if_pos hcD] at hd
      injection hd with hd1
      unfold bulkUpsertPerformance at hp
      by_cases hcP1 : (preparePerformanceRecords b).all (fun x =>
          d1.any (fun d => decide (d.districtCode = x.districtCode))) = true
      case neg => rw [if_neg hcP1] at hp; exact absurd hp (by simp)
      rw [if_pos hcP1] at hp
      by_cases hcP2 : (preparePerformanceRecords b).all (fun x =>
          (bulkUpsertFinancialYears s.finYears (extractUniqueFinYears b cy)).any
            (fun fy => decide (fy.finYear = x.finYear))) = true
      case neg => rw [if_neg hcP2] at hp; exact absurd hp (by simp)
      rw [if_pos hcP2] at hp
      injection hp with hp1
      simp only [List.all_eq_true, List.any_eq_true, decide_eq_true_eq] at hcD hcP1 hcP2
      have hp11 : (upsertFold (fun r : PerfRow => perfKey r.data) perfKey
          (fun r x => ⟨r.id, x⟩) (fun n x => (⟨n, x⟩, n + 1))
          s.performances s.nextPerfId (preparePerformanceRecords b)).1.1 = p1 := by
        rw [hp1]
      have hrecs0 : (upsertFold (fun r : PerfRow => perfKey r.data) perfKey
          (fun r x => ⟨r.id, x⟩) (fun n x => (⟨n, x⟩, n + 1))
          s.performances s.nextPerfId (preparePerformanceRecords b)).2 = recs0 := by
        rw [hp1]
      have partD : ∀ d ∈ d1, ∃ st ∈ bulkUpsertStates s.states (extractUniqueStates b),
          st.stateCode = d.stateCode := by
        intro d hdmem
        rw [← hd1] at hdmem
        refine upsertFold_closure (fun r => r.districtCode) (fun x => x.districtCode)
          (fun r x => { r with districtName := x.districtName, stateCode := x.stateCode })
          (fun (t : Unit) x => (x, t))
          (fun d => ∃ st ∈ bulkUpsertStates s.states (extractUniqueStates b),
            st.stateCode = d.stateCode)
          (extractUniqueDistricts b) s.districts () ?_ ?_ ?_ d hdmem
        · intro r hr
          obtain ⟨st, hst, hstc⟩ := hinvD r hr
          exact upsertFold_exists_mono (fun r : StateRow => r.stateCode)
            (fun x => x.stateCode) (fun r x => { r with stateName := x.stateName })
            (fun (t : Unit) x => (x, t)) (fun r : StateRow => r.stateCode)
            (fun r x hk => rfl) r.stateCode (extractUniqueStates b) s.states ()
            ⟨st, hst, hstc⟩
        · intro r x hP hx hk
          exact hcD x hx
        · intro t x hx
          exact hcD x hx
      have partP : ∀ p ∈ p1,
          (∃ d ∈ d1, d.districtCode = p.data.districtCode)
          ∧ (∃ fy ∈ bulkUpsertFinancialYears s.finYears (extractUniqueFinYears b cy),
              fy.finYear = p.data.finYear) := by
        intro p hpmem
        rw [← hp11] at hpmem
        refine upsertFold_closure (fun r : PerfRow => perfKey r.data) perfKey
          (fun r x => ⟨r.id, x⟩) (fun n x => (⟨n, x⟩, n + 1))
          (fun p : PerfRow =>
            (∃ d ∈ d1, d.districtCode = p.data.districtCode)
            ∧ (∃ fy ∈ bulkUpsertFinancialYears s.finYears (extractUniqueFinYears b cy),
                fy.finYear = p.data.finYear))
          (preparePerformanceRecords b) s.performances s.nextPerfId ?_ ?_ ?_ p hpmem
        · intro r hr
          obtain ⟨⟨d, hdm, hdc⟩, ⟨fy, hfm, hfc⟩⟩ := hinvP r hr
          constructor
          · rw [← hd1]
            exact upsertFold_exists_mono (fun r : DistrictRow => r.districtCode)
              (fun x => x.districtCode)
              (fun r x => { r with districtName := x.districtName, stateCode := x.stateCode })
              (fun (t : Unit) x => (x, t)) (fun r : DistrictRow => r.districtCode)
              (fun r x hk => rfl) r.data.districtCode (extractUniqueDistricts b)
              s.districts () ⟨d, hdm, hdc⟩
          · exact upsertFold_exists_mono (fun r : FinYearRow => r.finYear)
              (fun x => x.finYear)
              (fun r x => { r with startYear := x.startYear, endYear := x.endYear })
              (fun (t : Unit) x => (x, t)) (fun r : FinYearRow => r.finYear)
              (fun r x hk => rfl) r.data.finYear (extractUniqueFinYears b cy)
              s.finYears () ⟨fy, hfm, hfc⟩
        · intro r x hP hx hk
          exact ⟨hcP1 x hx, hcP2 x hx⟩
        · intro t x hx
          exact ⟨hcP1 x hx, hcP2 x hx⟩
      have partE : ∀ e ∈ bulkUpsertExtendedMetrics s.extendedMetrics recs0 b,
          ∃ p ∈ p1, p.id = e.performanceId := by
        intro e hemem
        refine upsertFold_closure (fun r : ExtRow => r.performanceId)
          (fun x : PerfRow => x.id) (fun r _ => r)
          (fun (t : Unit) x => (extRowOf x, t))
          (fun e : ExtRow => ∃ p ∈ p1, p.id = e.performanceId)
          recs0 s.extendedMetrics () ?_ ?_ ?_ e hemem
        · intro r hr
          obtain ⟨p, hpm, hpc⟩ := hinvE r hr
          rw [← hp11]
          exact upsertFold_exists_mono (fun r : PerfRow => perfKey r.data) perfKey
            (fun r x => ⟨r.id, x⟩) (fun n x => (⟨n, x⟩, n + 1))
            (fun r : PerfRow => r.id) (fun r x hk => rfl) r.performanceId
            (preparePerformanceRecords b) s.performances s.nextPerfId ⟨p, hpm, hpc⟩
        · intro r x hP hx hk
          exact hP
        · intro t x hx
          have hret := upsertFold_returns_image (fun r : PerfRow => perfKey r.data) perfKey
            (fun r x => ⟨r.id, x⟩) (fun n x => (⟨n, x⟩, n + 1))
            (fun r : PerfRow => r.id) (fun r x hk => rfl)
            (preparePerformanceRecords b) s.performances s.nextPerfId x
            (by rw [hrecs0]; exact hx)
          rw [hp11] at hret
          obtain ⟨r, hrm, hre⟩ := hret
          exact ⟨r, hrm, hre⟩
      exact ⟨partD, partP, partE⟩

set_option maxRecDepth 100000 in
/-- C4 witness: the invariant holds on the empty store and is preserved
by a concrete successful ingest. -/
theorem referential_order_witness : RefInv emptyStorage ∧ RefInv sampleStorage :=
  ⟨by decide,
   referential_order emptyStorage sampleStorage [sampleRecord] 2024 sampleRecs
     (by decide) (by rfl)⟩

/-- C6 counterexample: the payment component of the score is not capped,
so a record with `paymentWithin15Days = 500` scores 125, outside
[0,100]. -/
theorem performance_score_range_counterexample :
    calculatePerformanceScore overpaidPerf = 125
      ∧ ¬ (calculatePerformanceScore overpaidPerf ≤ 100) := by
  have h : calculatePerformanceScore overpaidPerf = 125 := by
    show jsRound (min ((0 / 100) * 30) 30 + ((500 : ℚ) / 100) * 25
      + min (((0 : ℚ) / 50) * 20) 20
      + (if ((0 : ℤ) + 0) > 0 then (((0 : ℤ) : ℚ) / (((0 : ℤ) + 0 : ℤ) : ℚ)) * 25 else 0)) = 125
    norm_num [jsRound]
  exact ⟨h, by rw [h]; norm_num⟩

/-- C6 (amended). The performance score is the rounded sum of the four
components exactly as written in the source, and on records whose fields
are nonnegative with the payment percentage within [0,100] — the only
component the code does not cap — the result lies in [0,100]. -/
theorem performance_score_pure_bounded (d : PerfIn)
    (h1 : 0 ≤ d.averageDaysEmployment) (h2 : 0 ≤ d.paymentWithin15Days)
    (h2b : d.paymentWithin15Days ≤ 100) (h3 : 0 ≤ d.womenPersondays)
    (h4 : 0 ≤ d.completedWorks) (h5 : 0 ≤ d.ongoingWorks) :
    calculatePerformanceScore d
        = jsRound (min ((d.averageDaysEmployment / 100) * 30) 30
            + (d.paymentWithin15Days / 100) * 25
            + min ((d.womenPersondays / 50) * 20) 20
            + (if d.completedWorks + d.ongoingWorks > 0
               then ((d.completedWorks : ℚ) / ((d.completedWorks + d.ongoingWorks : ℤ) : ℚ)) * 25
               else 0))
      ∧ 0 ≤ calculatePerformanceScore d ∧ calculatePerformanceScore d ≤ 100 := by
  have hb : 0 ≤ calculatePerformanceScore d ∧ calculatePerformanceScore d ≤ 100 := by
    unfold calculatePerformanceScore jsRound
    dsimp only []
    set c1 : ℚ := min ((d.averageDaysEmployment / 100) * 30) 30 with hc1
    set c2 : ℚ := (d.paymentWithin15Days / 100) * 25 with hc2
    set c3 : ℚ := min ((d.womenPersondays / 50) * 20) 20 with hc3
    set c4 : ℚ := (if d.completedWorks + d.ongoingWorks > 0
      then ((d.completedWorks : ℚ) / ((d.completedWorks + d.ongoingWorks : ℤ) : ℚ)) * 25
      else 0) with hc4
    have hb1 : 0 ≤ c1 ∧ c1 ≤ 30 := by
      constructor
      · exact le_min (by positivity) (by norm_num)
      · exact min_le_right _ _
    have hb2 : 0 ≤ c2 ∧ c2 ≤ 25 := by
      constructor
      · rw [hc2]; positivity
      · rw [hc2]
        calc (d.paymentWithin15Days / 100) * 25 ≤ 1 * 25 := by
              refine mul_le_mul_of_nonneg_right ?_ (by norm_num)
              rw [div_le_one (by norm_num)]
              exact h2b
          _ = 25 := by norm_num
    have hb3 : 0 ≤ c3 ∧ c3 ≤ 20 := by
      constructor
      · exact le_min (by positivity) (by norm_num)
      · exact min_le_right _ _
    have hb4 : 0 ≤ c4 ∧ c4 ≤ 25 := by
      rw [hc4]
      split
      · next hpos =>
        have htq : (0 : ℚ) < ((d.completedWorks + d.ongoingWorks : ℤ) : ℚ) := by
          exact_mod_cast hpos
        constructor
        · have hcq : (0 : ℚ) ≤ (d.completedWorks : ℚ) := by exact_mod_cast h4
          positivity
        · calc ((d.completedWorks : ℚ) / ((d.completedWorks + d.ongoingWorks : ℤ) : ℚ)) * 25
              ≤ 1 * 25 := by
                refine mul_le_mul_of_nonneg_right ?_ (by norm_num)
                rw [div_le_one htq]
                push_cast
                linarith [(by exact_mod_cast h5 : (0 : ℚ) ≤ (d.ongoingWorks : ℚ))]
            _ = 25 := by norm_num
      · exact ⟨le_refl 0, by norm_num⟩
    constructor
    · refine Int.le_floor.2 ?_
      have h0 : ((0 : ℤ) : ℚ) ≤ c1 + c2 + c3 + c4 + 1 / 2 := by
        have := hb1.1; have := hb2.1; have := hb3.1; have := hb4.1
        push_cast
        linarith
      exact h0
    · have hsum : c1 + c2 + c3 + c4 + 1 / 2 ≤ 201 / 2 := by
        have := hb1.2; have := hb2.2; have := hb3.2; have := hb4.2
        linarith
      calc ⌊c1 + c2 + c3 + c4 + 1 / 2⌋ ≤ ⌊(201 / 2 : ℚ)⌋ := Int.floor_le_floor hsum
        _ = 100 := by norm_num
  exact ⟨rfl, hb.1, hb.2⟩

/-- C6 witness: the bounds at a concrete in-range record. -/
theorem performance_score_pure_bounded_witness :
    0 ≤ calculatePerformanceScore scorePerf ∧ calculatePerformanceScore scorePerf ≤ 100 :=
  ⟨(performance_score_pure_bounded scorePerf (by decide) (by decide) (by decide)
      (by decide) (by decide) (by decide)).2.1,
   (performance_score_pure_bounded scorePerf (by decide) (by decide) (by decide)
      (by decide) (by decide) (by decide)).2.2⟩

/-- C10. The ratio helpers never divide by zero: when
`totalIndividualsWorked` is 0 the SC/ST and women percentages divide by
the substituted 1, when `approvedLabourBudget` is 0 budget utilization
divides by 1, and the completion rate is exactly 0 when there are no
works. -/
theorem ratio_helpers_total (p : PerfIn) :
    (p.totalIndividualsWorked = 0 →
        calculateSCSTPercentage p
            = toFixed2 ((((p.scPersondays : ℚ) + (p.stPersondays : ℚ)) / 1) * 100)
          ∧ calculateWomenPercentage p = toFixed2 ((p.womenPersondays / 1) * 100))
    ∧ (p.approvedLabourBudget = 0 →
        calculateBudgetUtilization p = toFixed2 (((p.totalExpenditure : ℚ) / 1) * 100))
    ∧ (p.completedWorks + p.ongoingWorks = 0 → calculateCompletionRate p = 0) := by
  refine ⟨fun h => ⟨?_, ?_⟩, fun h => ?_, fun h => ?_⟩
  · unfold calculateSCSTPercentage
    dsimp only []
    rw [if_pos h]
  · unfold calculateWomenPercentage
    dsimp only []
    rw [if_pos h]
  · unfold calculateBudgetUtilization
    dsimp only []
    rw [if_pos h]
  · unfold calculateCompletionRate
    dsimp only []
    rw [if_pos h]

/-- C10 witness: the all-zero record exercises every zero-denominator
branch. -/
theorem ratio_helpers_total_witness :
    calculateSCSTPercentage basePerf
        = toFixed2 ((((basePerf.scPersondays : ℚ) + (basePerf.stPersondays : ℚ)) / 1) * 100)
      ∧ calculateCompletionRate basePerf = 0 :=
  ⟨((ratio_helpers_total basePerf).1 (by decide)).1,
   (ratio_helpers_total basePerf).2.2 (by decide)⟩

/-! ### District-code derivation (C7) -/

lemma natDigitsAux_length : ∀ (fuel n k : ℕ), n ≤ fuel → n < 10 ^ k →
    (natDigitsAux fuel n).length ≤ k := by
  intro fuel
  induction fuel with
  | zero =>
    intro n k hf hk
    have : n = 0 := Nat.le_zero.1 hf
    subst this
    simp [natDigitsAux]
  | succ fuel ih =>
    intro n k hf hk
    unfold natDigitsAux
    by_cases h0 : n = 0
    · rw [if_pos h0]
      simp
    · rw [if_neg h0]
      cases k with
      | zero =>
        exfalso
        simp at hk
        omega
      | succ k2 =>
        simp only [List.length_cons]
        have hdiv : n / 10 < 10 ^ k2 := by
          refine Nat.div_lt_of_lt_mul ?_
          rw [pow_succ, Nat.mul_comm] at hk
          exact hk
        have hfle : n / 10 ≤ fuel := by
          have h1 : n / 10 < n := Nat.div_lt_self (Nat.pos_of_ne_zero h0) (by norm_num)
          omega
        have := ih (n / 10) k2 hfle hdiv
        omega

lemma decimalStr_length_le (n : ℕ) (h : n < 1000) : (decimalStr n).length ≤ 3 := by
  unfold decimalStr
  split
  · simp
  · rw [List.length_map, List.length_reverse]
    exact natDigitsAux_length n n 3 le_rfl (by simpa using h)

lemma padStart_length (s : JStr) (len : ℕ) (c : Char) :
    (padStart s len c).length = max len s.length := by
  unfold padStart
  rw [List.length_append, List.length_replicate]
  omega

/-- C7. District-code derivation: for a non-empty name and state code the
derived code is the state code, then the first three letters of the name
uppercased, then the 3-digit zero-padded hash of the name mod 1000; the
derivation is a pure function, so deriving twice gives the same code. -/
theorem district_code_derivation (districtName stateCode : JStr)
    (h1 : districtName ≠ []) (h2 : stateCode ≠ []) :
    generateDistrictCode (some districtName) stateCode
        = stateCode ++ jToUpper (districtName.take 3)
            ++ padStart (decimalStr ((hashCode districtName).natAbs % 1000)) 3 (Char.ofNat 48)
      ∧ (padStart (decimalStr ((hashCode districtName).natAbs % 1000)) 3 (Char.ofNat 48)).length
          = 3
      ∧ generateDistrictCode (some districtName) stateCode
          = generateDistrictCode (some districtName) stateCode := by
  refine ⟨?_, ?_, rfl⟩
  · show (if districtName = [] ∨ stateCode = [] then js "UNKNOWN"
      else stateCode ++ jToUpper (districtName.take 3)
        ++ padStart (decimalStr ((hashCode districtName).natAbs % 1000)) 3 (Char.ofNat 48)) = _
    rw [if_neg (fun hor => hor.elim h1 h2)]
  · rw [padStart_length]
    have hlt : (hashCode districtName).natAbs % 1000 < 1000 := Nat.mod_lt _ (by norm_num)
    have hle := decimalStr_length_le _ hlt
    omega

/-- C7 witness: the derivation at a concrete (name, state code) pair. -/
theorem district_code_derivation_witness :
    generateDistrictCode (some (js "Mysuru")) (js "KA")
        = js "KA" ++ jToUpper ((js "Mysuru").take 3)
            ++ padStart (decimalStr ((hashCode (js "Mysuru")).natAbs % 1000)) 3 (Char.ofNat 48)
      ∧ (padStart (decimalStr ((hashCode (js "Mysuru")).natAbs % 1000)) 3 (Char.ofNat 48)).length
          = 3 :=
  ⟨(district_code_derivation (js "Mysuru") (js "KA") (by decide) (by decide)).1,
   (district_code_derivation (js "Mysuru") (js "KA") (by decide) (by decide)).2.1⟩

lemma parseDigits_all_digits (s : JStr) : ∀ (acc : ℤ),
    (∀ c ∈ s, c.isDigit = true) →
    parseIntCore.parseDigits s acc true
      = some (s.foldl (fun a c => a * 10 + ((c.toNat - 48 : ℕ) : ℤ)) acc) := by
  induction s with
  | nil => intro acc _; rfl
  | cons c cs ih =>
    intro acc h
    show (if c.isDigit then parseIntCore.parseDigits cs (acc * 10 + ((c.toNat - 48 : ℕ) : ℤ)) true
      else if true then some acc else none) = _
    rw [if_pos (h c (List.mem_cons_self _ _))]
    exact ih _ (fun d hd => h d (List.mem_cons_of_mem _ hd))

lemma jsParseInt_digits (a : JStr) (h1 : a ≠ []) (h2 : ∀ c ∈ a, c.isDigit = true) :
    jsParseInt a = some (digitsVal a) := by
  obtain ⟨c0, rest, rfl⟩ := List.exists_cons_of_ne_nil h1
  have hc0 : c0.isDigit = true := h2 c0 (List.mem_cons_self _ _)
  have hne_sp : ¬ (c0 = ' ') := by
    intro he
    rw [he] at hc0
    exact absurd hc0 (by decide)
  have hnm : ¬ (c0 = Char.ofNat 45) := by
    intro he
    rw [he] at hc0
    exact absurd hc0 (by decide)
  have hnp : ¬ (c0 = Char.ofNat 43) := by
    intro he
    rw [he] at hc0
    exact absurd hc0 (by decide)
  unfold jsParseInt
  rw [List.dropWhile_cons_of_neg (by simp [hne_sp])]
  simp only [parseIntCore]
  rw [if_neg hnm, if_neg hnp]
  simp only [parseIntCore.parseDigits]
  rw [if_pos hc0]
  rw [parseDigits_all_digits rest _ (fun d hd => h2 d (List.mem_cons_of_mem _ hd))]
  rfl

/-- C8 counterexample: `"bad-label"` is malformed (not of the
`YYYY-YYYY` shape), yet because it contains a hyphen the parser does NOT
default to the current year span — it returns the NaN pair. -/
theorem parse_financial_year_counterexample :
    parseFinancialYear (js "bad-label") 2026 = (none, none)
      ∧ parseFinancialYear (js "bad-label") 2026 ≠ (some 2026, some 2027) := by
  constructor
  · decide
  · decide

/-- C8 (amended). A well-formed `"A-B"` label (both parts nonempty digit
strings) parses into the two integers; a label that is empty or contains
no hyphen — the only labels the code treats as malformed — defaults to
the current year span; a hyphen-containing label is split at hyphens and
the first two parts go through `parseInt`. -/
theorem parse_financial_year_cases (finYear a b : JStr) (cy : ℤ)
    (hsplit : splitOnChar (Char.ofNat 45) finYear = [a, b])
    (hcontains : finYear.contains (Char.ofNat 45) = true)
    (hne : finYear ≠ [])
    (ha1 : a ≠ []) (ha2 : ∀ c ∈ a, c.isDigit = true)
    (hb1 : b ≠ []) (hb2 : ∀ c ∈ b, c.isDigit = true) :
    parseFinancialYear finYear cy = (some (digitsVal a), some (digitsVal b))
      ∧ (∀ s : JStr, s = [] ∨ s.contains (Char.ofNat 45) = false →
          parseFinancialYear s cy = (some cy, some (cy + 1))) := by
  constructor
  · unfold parseFinancialYear
    rw [if_neg (fun hor => hor.elim (fun h => hne h) (fun h => h hcontains))]
    rw [hsplit]
    show (jsParseInt a, jsParseInt b) = _
    rw [jsParseInt_digits a ha1 ha2, jsParseInt_digits b hb1 hb2]
  · intro s hs
    unfold parseFinancialYear
    rcases hs with h | h
    · rw [if_pos (Or.inl h)]
    · rw [if_pos (Or.inr (by rw [h]; exact Bool.false_ne_true))]

/-- C8 witness: the well-formed label `"2024-2025"` parses into
(2024, 2025), and a hyphen-free label defaults. -/
theorem parse_financial_year_cases_witness :
    parseFinancialYear (js "2024-2025") 2026 = (some 2024, some 2025)
      ∧ parseFinancialYear (js "nodash") 2026 = (some 2026, some 2027) := by
  have T := parse_financial_year_cases (js "2024-2025") (js "2024") (js "2025") 2026
    (by decide) (by decide) (by decide) (by decide) (by decide) (by decide) (by decide)
  constructor
  · rw [T.1]
    decide
  · exact T.2 (js "nodash") (Or.inr (by decide))

/-- The first index of a maximal value in the descending sort is 0. -/
lemma firstIdx_sortDesc_max (values : List ℚ) (v : ℚ) (hv : v ∈ values)
    (hmax : ∀ u ∈ values, u ≤ v) : firstIdx v (sortDesc values) = 0 := by
  have hperm := List.perm_insertionSort (fun a b : ℚ => a ≥ b) values
  have hsorted := List.sorted_insertionSort (fun a b : ℚ => a ≥ b) values
  cases hs : sortDesc values with
  | nil =>
    exfalso
    have hmem : v ∈ sortDesc values := by
      unfold sortDesc
      exact hperm.symm.subset hv
    rw [hs] at hmem
    exact absurd hmem (List.not_mem_nil v)
  | cons x rest =>
    have hxval : x ∈ values := by
      have hmem : x ∈ sortDesc values := by rw [hs]; exact List.mem_cons_self _ _
      unfold sortDesc at hmem
      exact hperm.subset hmem
    have hxle : x ≤ v := hmax x hxval
    have hvmem : v ∈ x :: rest := by
      have hmem : v ∈ sortDesc values := by
        unfold sortDesc
        exact hperm.symm.subset hv
      rwa [hs] at hmem
    have hsorted2 : List.Sorted (fun a b : ℚ => a ≥ b) (x :: rest) := by
      unfold sortDesc at hs
      rwa [hs] at hsorted
    have hvx : x = v := by
      rcases List.mem_cons.1 hvmem with rfl | hvrest
      · rfl
      · exact le_antisymm hxle ((List.sorted_cons.1 hsorted2).1 v hvrest)
    unfold firstIdx
    rw [if_pos hvx]

/-- C9. Comparison ranking: every metric array and every ranking array
has one entry per compared district in input order; each metric's rank
array is the value array mapped through `sortDesc`-first-occurrence-plus-
one; the rank at any index is 1 + the first occurrence of its value in
the descending sort, a maximal value receives rank 1, and equal values
receive equal ranks. -/
theorem comparison_ranking (ds : List JoinedPerf) (values : List ℚ) (i j : ℕ) (v w : ℚ)
    (hi : values[i]? = some v) (hj : values[j]? = some w) :
    ((generateComparison ds).metrics.averageDaysEmployment.length = ds.length
      ∧ (generateComparison ds).metrics.averageWageRate.length = ds.length
      ∧ (generateComparison ds).metrics.totalHouseholdsWorked.length = ds.length
      ∧ (generateComparison ds).metrics.womenPersondays.length = ds.length
      ∧ (generateComparison ds).metrics.paymentWithin15Days.length = ds.length
      ∧ (generateComparison ds).metrics.completedWorks.length = ds.length
      ∧ (generateComparison ds).metrics.performanceScores.length = ds.length
      ∧ (generateComparison ds).rankings.averageDaysEmployment.length = ds.length
      ∧ (generateComparison ds).rankings.averageWageRate.length = ds.length
      ∧ (generateComparison ds).rankings.totalHouseholdsWorked.length = ds.length
      ∧ (generateComparison ds).rankings.womenPersondays.length = ds.length
      ∧ (generateComparison ds).rankings.paymentWithin15Days.length = ds.length
      ∧ (generateComparison ds).rankings.completedWorks.length = ds.length
      ∧ (generateComparison ds).rankings.performanceScores.length = ds.length)
    ∧ ((generateComparison ds).rankings.averageDaysEmployment
          = rankValues ((generateComparison ds).metrics.averageDaysEmployment)
      ∧ (generateComparison ds).rankings.performanceScores
          = rankValues ((generateComparison ds).metrics.performanceScores))
    ∧ (rankValues values)[i]? = some (firstIdx v (sortDesc values) + 1)
    ∧ ((∀ u ∈ values, u ≤ v) → (rankValues values)[i]? = some 1)
    ∧ (v = w → (rankValues values)[i]? = (rankValues values)[j]?) := by
  have hrank : ∀ (k : ℕ) (z : ℚ), values[k]? = some z →
      (rankValues values)[k]? = some (firstIdx z (sortDesc values) + 1) := by
    intro k z hk
    unfold rankValues
    rw [List.getElem?_map, hk]
    rfl
  have hmem : ∀ (l : List ℚ) (k : ℕ) (z : ℚ), l[k]? = some z → z ∈ l := by
    intro l
    induction l with
    | nil => intro k z h; simp at h
    | cons a rest ih =>
      intro k z h
      cases k with
      | zero =>
        simp at h
        rw [← h]
        exact List.mem_cons_self _ _
      | succ k2 =>
        simp only [List.getElem?_cons_succ] at h
        exact List.mem_cons_of_mem _ (ih k2 z h)
  refine ⟨?_, ⟨rfl, rfl⟩, hrank i v hi, ?_, ?_⟩
  · simp [generateComparison, rankValues]
  · intro hmax
    rw [hrank i v hi, firstIdx_sortDesc_max values v (hmem values i v hi) hmax]
  · intro hvw
    rw [hrank i v hi, hrank j w hj, hvw]

/-- C9 witness: on the values `[3, 1, 3]`, the maximal value at index 0
receives rank 1 and the tied value at index 2 receives the same rank. -/
theorem comparison_ranking_witness :
    (rankValues [3, 1, 3])[0]? = some 1
      ∧ (rankValues [3, 1, 3])[0]? = (rankValues [3, 1, 3])[2]? := by
  have T := comparison_ranking [] [3, 1, 3] 0 2 3 3 (by decide) (by decide)
  exact ⟨T.2.2.2.1 (by decide), T.2.2.2.2 rfl⟩

lemma buildWhereClause_count_le (F : Upstream) (cy : ℤ) (s : Storage) (finYear : JStr)
    (month : Option JStr) (district : Option JStr) (stateCode stateName : JStr) :
    (buildWhereClause F cy s finYear month district stateCode stateName).2.2 ≤ 1 := by
  cases district with
  | none => simp [buildWhereClause]
  | some d =>
    cases hfd : findDistrict s d stateCode with
    | some dr => simp [buildWhereClause, hfd]
    | none =>
      cases hF : F stateName finYear (some d) with
      | error e => simp [buildWhereClause, hfd, hF]
      | ok lst =>
        cases lst with
        | nil => simp [buildWhereClause, hfd, hF]
        | cons r rs =>
          cases hP : processAndStoreDataBulk s (r :: rs) cy with
          | error e => simp [buildWhereClause, hfd, hF, hP]
          | ok pr =>
            obtain ⟨s2, recs⟩ := pr
            cases hfd2 : findDistrict s2 d stateCode with
            | some dr => simp [buildWhereClause, hfd, hF, hP, hfd2]
            | none => simp [buildWhereClause, hfd, hF, hP, hfd2]

lemma fallbackLoop_count_le (F : Upstream) (cy : ℤ) (nm : JStr) :
    ∀ (ys : List JStr) (s : Storage), (fallbackLoop F cy nm s ys).2 ≤ ys.length := by
  intro ys
  induction ys with
  | nil => intro s; simp [fallbackLoop]
  | cons y ys ih =>
    intro s
    cases hF : F nm y none with
    | error e =>
      simp only [fallbackLoop, hF, List.length_cons]
      have := ih s
      omega
    | ok lst =>
      cases lst with
      | nil =>
        simp only [fallbackLoop, hF, List.length_cons]
        have := ih s
        omega
      | cons r rs =>
        cases hP : processAndStoreDataBulk s (r :: rs) cy with
        | error e =>
          simp only [fallbackLoop, hF, hP, List.length_cons]
          have := ih s
          omega
        | ok pr =>
          obtain ⟨s2, recs⟩ := pr
          simp only [fallbackLoop, hF, hP, List.length_cons]
          omega

lemma afterState_count_le (F : Upstream) (cy : ℤ) (q : Query) (s : Storage)
    (st : StateRow) (n : ℕ) : (afterState F cy q s st n).2.2 ≤ n + 3 := by
  have hbwle := buildWhereClause_count_le F cy s q.finYear q.month q.district
    st.stateCode st.stateName
  cases hbw1 : (buildWhereClause F cy s q.finYear q.month q.district
      st.stateCode st.stateName).1 with
  | none =>
    simp only [afterState, hbw1]
    omega
  | some wc =>
    simp only [afterState, hbw1]
    by_cases hdata : fetchPerformanceData
        (buildWhereClause F cy s q.finYear q.month q.district st.stateCode st.stateName).2.1
        wc st.stateCode ≠ []
    · rw [if_pos hdata]
      simp only []
      omega
    · rw [if_neg hdata]
      cases hF : F q.state q.finYear q.district with
      | error e =>
        simp only [hF]
        omega
      | ok lst =>
        cases lst with
        | nil =>
          simp only [hF]
          omega
        | cons r rs =>
          simp only [hF]
          cases hP : processAndStoreDataBulk
              (buildWhereClause F cy s q.finYear q.month q.district
                st.stateCode st.stateName).2.1 (r :: rs) cy with
          | error e =>
            simp only [hP]
            omega
          | ok pr =>
            obtain ⟨s3, recs⟩ := pr
            simp only [hP]
            have hbw2le := buildWhereClause_count_le F cy s3 q.finYear q.month q.district
              st.stateCode st.stateName
            cases hbw21 : (buildWhereClause F cy s3 q.finYear q.month q.district
                st.stateCode st.stateName).1 with
            | none =>
              simp only [hbw21]
              omega
            | some wc2 =>
              simp only [hbw21]
              by_cases hdata2 : fetchPerformanceData
                  (buildWhereClause F cy s3 q.finYear q.month q.district
                    st.stateCode st.stateName).2.1 wc2 st.stateCode ≠ []
              · rw [if_pos hdata2]
                simp only []
                omega
              · rw [if_neg hdata2]
                simp only []
                omega

/-- C2. Bounded upstream calls: a request whose state resolves locally,
whose optional district filter resolves locally, and whose local query is
non-empty performs zero upstream calls and succeeds; and every request —
any oracle, any storage, any query — performs at most 4 upstream calls
(within the claim's budget of fallback attempts + one district-scoped
attempt + one general retry). -/
theorem bounded_upstream_calls (F : Upstream) (cy : ℤ) (s : Storage) (q : Query)
    (st : StateRow) (wc : WhereClause)
    (hval : ¬ (q.state = [] ∨ q.finYear = []))
    (hst : findState s q.state = some st)
    (hbw : buildWhereClause F cy s q.finYear q.month q.district st.stateCode st.stateName
        = (some wc, s, 0))
    (hdata : fetchPerformanceData s wc st.stateCode ≠ []) :
    ((getDistrictData F cy s q).1 = .ok ∧ (getDistrictData F cy s q).2.2 = 0)
    ∧ (∀ (F2 : Upstream) (s2 : Storage) (q2 : Query),
        (getDistrictData F2 cy s2 q2).2.2 ≤ 4) := by
  constructor
  · have h1 : getDistrictData F cy s q = afterState F cy q s st 0 := by
      simp only [getDistrictData, hst]
      rw [if_neg hval]
    have h2 : afterState F cy q s st 0 = (.ok, s, 0) := by
      simp only [afterState, hbw]
      rw [if_pos hdata]
    rw [h1, h2]
    exact ⟨rfl, rfl⟩
  · intro F2 s2 q2
    by_cases hv2 : q2.state = [] ∨ q2.finYear = []
    · simp [getDistrictData, hv2]
    · cases hst2 : findState s2 q2.state with
      | some st2 =>
        simp only [getDistrictData, hst2]
        rw [if_neg hv2]
        have := afterState_count_le F2 cy q2 s2 st2 0
        omega
      | none =>
        simp only [getDistrictData, hst2]
        rw [if_neg hv2]
        cases hF : F2 q2.state q2.finYear q2.district with
        | error e =>
          simp only [hF]
          omega
        | ok lst =>
          cases lst with
          | nil =>
            simp only [hF]
            have hloop := fallbackLoop_count_le F2 cy q2.state fallbackYears s2
            have hlen : fallbackYears.length = 3 := rfl
            cases hfs : findState (fallbackLoop F2 cy q2.state s2 fallbackYears).1
                q2.state with
            | none =>
              simp only [hfs]
              omega
            | some st3 =>
              simp only [hfs]
              omega
          | cons r rs =>
            simp only [hF]
            cases hP : processAndStoreDataBulk s2 (r :: rs) cy with
            | error e =>
              simp only [hP]
              omega
            | ok pr =>
              obtain ⟨s3, recs⟩ := pr
              simp only [hP]
              cases hfs : findState s3 q2.state with
              | none =>
                simp only [hfs]
                omega
              | some st3 =>
                simp only [hfs]
                have := afterState_count_le F2 cy q2 s3 st3 1
                omega

lemma fallbackLoop_all_fail (F : Upstream) (cy : ℤ) (nm : JStr) :
    ∀ (ys : List JStr) (s : Storage),
    (∀ y ∈ ys, F nm y none = .ok [] ∨ F nm y none = .error ()) →
    fallbackLoop F cy nm s ys = (s, ys.length) := by
  intro ys
  induction ys with
  | nil => intro s _; rfl
  | cons y ys ih =>
    intro s h
    rcases h y (List.mem_cons_self _ _) with hy | hy
    · simp only [fallbackLoop, hy]
      rw [ih s (fun z hz => h z (List.mem_cons_of_mem _ hz))]
      simp
    · simp only [fallbackLoop, hy]
      rw [ih s (fun z hz => h z (List.mem_cons_of_mem _ hz))]
      simp

lemma fallbackLoop_first_success (F : Upstream) (cy : ℤ) (nm : JStr) :
    ∀ (ys1 : List JStr) (s : Storage) (y : JStr) (ys2 : List JStr)
      (r : ApiRecord) (rs : List ApiRecord) (s2 : Storage) (recs : List PerfRow),
    (∀ z ∈ ys1, F nm z none = .ok [] ∨ F nm z none = .error ()) →
    F nm y none = .ok (r :: rs) →
    processAndStoreDataBulk s (r :: rs) cy = .ok (s2, recs) →
    fallbackLoop F cy nm s (ys1 ++ y :: ys2) = (s2, ys1.length + 1) := by
  intro ys1
  induction ys1 with
  | nil =>
    intro s y ys2 r rs s2 recs _ hy hP
    simp only [List.nil_append, fallbackLoop, hy, hP]
    simp
  | cons z ys1 ih =>
    intro s y ys2 r rs s2 recs hpre hy hP
    rcases hpre z (List.mem_cons_self _ _) with hz | hz
    · simp only [List.cons_append, fallbackLoop, hz, List.append_eq]
      rw [ih s y ys2 r rs s2 recs (fun w hw => hpre w (List.mem_cons_of_mem _ hw)) hy hP]
      simp
    · simp only [List.cons_append, fallbackLoop, hz, List.append_eq]
      rw [ih s y ys2 r rs s2 recs (fun w hw => hpre w (List.mem_cons_of_mem _ hw)) hy hP]
      simp

/-- C5. Not-found distinction: for a request whose state is unknown
locally and whose requested period yields nothing upstream, the resolver
walks the ordered fallback periods; if every fallback yields nothing (or
errors), the outcome is the region-unknown not-found; if the first
productive fallback ingests successfully and makes the state known, the
outcome is the region-known-but-no-data-for-requested-period not-found —
both of HTTP kind 404. -/
theorem notfound_distinction (F : Upstream) (cy : ℤ) (s : Storage) (q : Query)
    (hval : ¬ (q.state = [] ∨ q.finYear = []))
    (hst : findState s q.state = none)
    (hreq : F q.state q.finYear q.district = .ok []) :
    ((∀ y ∈ fallbackYears, F q.state y none = .ok [] ∨ F q.state y none = .error ()) →
        (getDistrictData F cy s q).1 = .notFoundStateNoData
          ∧ statusOf (getDistrictData F cy s q).1 = 404)
    ∧ (∀ (ys1 ys2 : List JStr) (y : JStr) (r : ApiRecord) (rs : List ApiRecord)
          (s2 : Storage) (recs : List PerfRow) (st2 : StateRow),
        fallbackYears = ys1 ++ y :: ys2 →
        (∀ z ∈ ys1, F q.state z none = .ok [] ∨ F q.state z none = .error ()) →
        F q.state y none = .ok (r :: rs) →
        processAndStoreDataBulk s (r :: rs) cy = .ok (s2, recs) →
        findState s2 q.state = some st2 →
        (getDistrictData F cy s q).1 = .notFoundDataForYear
          ∧ statusOf (getDistrictData F cy s q).1 = 404) := by
  constructor
  · intro hall
    have hloop := fallbackLoop_all_fail F cy q.state fallbackYears s hall
    have hmain : getDistrictData F cy s q
        = (.notFoundStateNoData, s, 1 + fallbackYears.length) := by
      simp only [getDistrictData]
      rw [if_neg hval]
      simp only [hst, hreq, hloop]
    rw [hmain]
    exact ⟨rfl, rfl⟩
  · intro ys1 ys2 y r rs s2 recs st2 hsp hpre hy hP hfs
    have hloop := fallbackLoop_first_success F cy q.state ys1 s y ys2 r rs s2 recs
      hpre hy hP
    have hmain : getDistrictData F cy s q
        = (.notFoundDataForYear, s2, 1 + (ys1.length + 1)) := by
      simp only [getDistrictData]
      rw [if_neg hval]
      simp only [hst, hreq, hsp, hloop, hfs]
    rw [hmain]
    exact ⟨rfl, rfl⟩

set_option maxRecDepth 400000 in
/-- C2 witness: over the ingested sample storage, the same query succeeds
with zero upstream calls. -/
theorem bounded_upstream_calls_witness :
    (getDistrictData wUpstream 2024 sampleStorage wQuery).1 = Response.ok
      ∧ (getDistrictData wUpstream 2024 sampleStorage wQuery).2.2 = 0 :=
  (bounded_upstream_calls wUpstream 2024 sampleStorage wQuery wState wWC
    (by decide) (by rfl) (by rfl) (by decide)).1

set_option maxRecDepth 400000 in
/-- C5 witness: unknown state, empty requested period, first fallback
year productive — the outcome is the data-not-found (not
region-unknown) 404. -/
theorem notfound_distinction_witness :
    (getDistrictData w5F 2024 emptyStorage w5Query).1 = Response.notFoundDataForYear
      ∧ statusOf (getDistrictData w5F 2024 emptyStorage w5Query).1 = 404 :=
  (notfound_distinction w5F 2024 emptyStorage w5Query (by decide) (by rfl) (by rfl)).2
    [] [js "2022-2023", js "2021-2022"] (js "2023-2024") sampleRecord [] sampleStorage
    sampleRecs wState rfl (fun z hz => absurd hz (List.not_mem_nil z))
    (by rfl) (by rfl) (by rfl)

end Mgnrega

